import Mathlib

/-!
# Frame table and eviction (`src/vm/frame.c`)

A shallow embedding of the physical-frame manager: the frame table
(`add_frame`, `remove_frame`, `get_frame`, `assign_frame`), the second-chance
victim selection (`frame_to_evict`), the write-back of a victim
(`save_evicted_frame`) and the public entry points (`evict_frame`,
`allocate_frame`, `free_frame`).

Conventions of the embedding.

* Pointers into memory (`void *frame`, `uint32_t *pte`, `void *upage`) are
  natural numbers and `NULL` is `0`.
* A `struct frame *` is a position in the frame list (`frame_ptr`).
* The collaborators whose code is not in `frame.c` (physical allocator, page
  directory, supplemental page table, swap device, `calloc`, the current
  thread) are state components or per-call inputs gathered in `Env`.
* `lock_acquire`/`lock_release` do not touch the data and are left out of the
  sequential semantics.
-/

set_option linter.dupNamespace false

namespace VmFrame

/-! ## Constants of headers that `frame.c` includes -/

/-- The null pointer. -/
abbrev NULL : Nat := 0

/-- Modelled from the spec: the size of a frame ("a fixed-size unit of physical
memory"), `PGSIZE` of `threads/vaddr.h`, which is not among the sources. -/
abbrev PGSIZE : Nat := 4096

/-- Modelled from the spec: the writable bit of a page-table entry, `PTE_W` of
`threads/pte.h`, which is not among the sources. -/
abbrev PTE_W : Nat := 2

/-- Modelled from the spec: the zero-fill option of the physical allocator,
`PAL_ZERO` of `threads/palloc.h`, which is not among the sources. -/
abbrev PAL_ZERO : Nat := 2

/-- Modelled from the spec: the user-pool option of the physical allocator,
`PAL_USER` of `threads/palloc.h`, which is not among the sources. -/
abbrev PAL_USER : Nat := 4

/-! ## Data model -/

/-- Modelled from the spec: `struct frame` of `vm/frame.h`, which is not among
the sources; the fields are the ones `frame.c` reads and writes (the list link
`elem` is the position in the table). -/
structure frame where
  tid : Nat
  frame : Nat
  pte : Nat
  upage : Nat
deriving DecidableEq, Repr

/-- Modelled from the spec: `struct suppl_pte` of `vm/page.h`, which is not
among the sources; the fields are the ones `frame.c` reads and writes, under
the names it uses for them, `in_sawp` (written at line 239) and `TRUE` (read
at line 256) included. -/
structure suppl_pte where
  upageaddr : Nat
  in_swap : Bool
  in_sawp : Bool
  TRUE : Bool
  is_file : Bool
  is_loaded : Bool
  swap_slot_idx : Nat
  swap_writable : Bool
deriving DecidableEq, Repr

/-- A value of type `struct frame *`: null, the entry at a position of the
frame list, or an address that is no entry of the list. -/
inductive frame_ptr where
  | null : frame_ptr
  | entry (i : Nat) : frame_ptr
  | wild : frame_ptr
deriving DecidableEq, Repr

/-- The memory the functions of `frame.c` work on. -/
structure State where
  /-- the global list `frames`, front first -/
  frames : List frame
  /-- accessed bit of page `upage` in the page directory of thread `tid` -/
  accessed : Nat → Nat → Bool
  /-- dirty bit of page `upage` in the page directory of thread `tid` -/
  dirty : Nat → Nat → Bool
  /-- whether page `upage` is mapped in the page directory of thread `tid` -/
  mapped : Nat → Nat → Bool
  /-- supplemental page table of thread `tid` -/
  suppl_page_table : Nat → List suppl_pte
  /-- the page-table entry stored at a `uint32_t *pte` -/
  pte_word : Nat → Nat
  /-- physical memory, byte by byte -/
  mem : Nat → Nat
  /-- the pages handed to `vm_swap_out`, oldest first -/
  swap_out_calls : List Nat
  /-- the frames handed to `palloc_free_page`, oldest first -/
  palloc_freed : List Nat

/-- What one call receives from outside `frame.c`. -/
structure Env where
  /-- the value of `thread_current ()->tid` -/
  cur : Nat
  /-- whether page `upage` of thread `tid` is referenced by its owner just before
  the `k`-th read of an accessed bit by the scan, which sets its accessed bit -/
  touched : Nat → Nat → Nat → Bool
  /-- whether `calloc` in `add_frame` returns memory -/
  calloc_frame : Bool
  /-- whether `calloc` in `save_evicted_frame` returns memory -/
  calloc_spte : Bool
  /-- result of `insert_suppl_pte` -/
  insert_ok : Bool
  /-- result of `vm_swap_out` -/
  swap_ret : Nat
  /-- the constant `SWAP_ERROR` of `vm/swap.h` -/
  SWAP_ERROR : Nat
  /-- the indeterminate value of the local `swap_slot_idx` before it is assigned -/
  uninit_slot : Nat
  /-- whether the indeterminate value of the local `vf` of `get_frame`, before it
  is assigned, happens to be `NULL` -/
  uninit_vf_null : Bool
  /-- the result of `palloc_get_page (flags)`, `NULL` when no frame is free -/
  palloc_get_page : Nat → Nat

/-- How a call ends. -/
inductive Res (α : Type) where
  /-- normal return with a value -/
  | ret (a : α) (s : State) : Res α
  /-- kernel `PANIC` with its message -/
  | panic (msg : String) (s : State) : Res α
  /-- dereference of a pointer that is `NULL` or no object -/
  | fault (s : State) : Res α
  /-- the loop budget of the model ran out -/
  | timeout : Res α

/-- The state a call ends in. -/
def Res.final {α : Type} : Res α → Option State
  | .ret _ s => some s
  | .panic _ s => some s
  | .fault s => some s
  | .timeout => none

/-! ## Frame table -/

/-- Loop of `remove_frame`: unlink the first entry whose frame is `f`. -/
def remove_frame_list (f : Nat) : List frame → List frame
  | [] => []
  | vf :: rest => if vf.frame = f then rest else vf :: remove_frame_list f rest

/-- The function `remove_frame (frame)`. -/
def remove_frame (f : Nat) (s : State) : State :=
  { s with frames := remove_frame_list f s.frames }

/-- Loop of `get_frame`: `i` is the position of the next entry, `vf` the current
value of the local `vf`. -/
def get_frame_loop (f : Nat) : List frame → Nat → frame_ptr → frame_ptr
  | [], _, vf => vf
  | x :: rest, i, _ =>
    if x.frame = f then frame_ptr.entry i
    else get_frame_loop f rest (i + 1) frame_ptr.null

/-- The function `get_frame (frame)`: the local `vf` starts with an indeterminate value. -/
def get_frame (env : Env) (f : Nat) (s : State) : frame_ptr :=
  get_frame_loop f s.frames 0 (if env.uninit_vf_null then frame_ptr.null else frame_ptr.wild)

/-- The function `add_frame (frame)`; `calloc` zeroes `pte` and `upage`. -/
def add_frame (env : Env) (f : Nat) (s : State) : Bool × State :=
  if env.calloc_frame then
    (true, { s with frames := s.frames ++ [{ tid := env.cur, frame := f, pte := NULL, upage := NULL }] })
  else
    (false, s)

/-- The function `assign_frame (frame, pte, upage)`. -/
def assign_frame (env : Env) (f pte upage : Nat) (s : State) : Res Unit :=
  match get_frame env f s with
  | frame_ptr.null => Res.ret () s
  | frame_ptr.entry i =>
    Res.ret () { s with frames := s.frames.modify (fun vf => { vf with pte := pte, upage := upage }) i }
  | frame_ptr.wild => Res.fault s

/-! ## Victim selection -/

/-- The effect of `pagedir_set_accessed (pd, upage, value)` on the accessed bits. -/
def pagedir_set_accessed (acc : Nat → Nat → Bool) (tid upage : Nat) (v : Bool) : Nat → Nat → Bool :=
  fun t u => if t = tid ∧ u = upage then v else acc t u

/-- References by the owners just before the `k`-th read. -/
def touch (env : Env) (k : Nat) (acc : Nat → Nat → Bool) : Nat → Nat → Bool :=
  fun t u => acc t u || env.touched k t u

/-- State of the scan of `frame_to_evict`. -/
structure Scan where
  /-- the local `vf_class0` -/
  vf_class0 : Option frame
  frames : List frame
  accessed : Nat → Nat → Bool
  /-- number of accessed-bit reads made so far -/
  reads : Nat

/-- Inner loop of `frame_to_evict` from the entry at the head of the list: `k`
counts the reads of an accessed bit, `acc` holds the accessed bits. An entry
found not accessed is unlinked and pushed to the back; the owner `vf->tid` is
taken to be a live thread. -/
def scan (env : Env) : Nat → (Nat → Nat → Bool) → List frame → Scan
  | k, acc, [] => { vf_class0 := none, frames := [], accessed := acc, reads := k }
  | k, acc, vf :: rest =>
    if touch env k acc vf.tid vf.upage then
      let r := scan env (k + 1) (pagedir_set_accessed (touch env k acc) vf.tid vf.upage false) rest
      { r with frames := vf :: r.frames }
    else
      { vf_class0 := some vf, frames := rest ++ [vf], accessed := touch env k acc, reads := k + 1 }

/-- What `frame_to_evict` leaves behind. -/
structure Selection where
  /-- the returned `vf_class0`; when it is an entry, the entry is the last of `frames` -/
  vf_class0 : Option frame
  frames : List frame
  accessed : Nat → Nat → Bool
  reads : Nat
  /-- number of traversals of the table -/
  passes : Nat
  /-- the local `round_count` on exit -/
  round_count : Nat

/-- Outer loop `while (!found)` of `frame_to_evict`; `none` when the budget
`fuel` of iterations is used up. -/
def evict_loop (env : Env) : Nat → Nat → Nat → Nat → (Nat → Nat → Bool) → List frame → Option Selection
  | 0, _, _, _, _, _ => none
  | fuel + 1, round_count, passes, k, acc, frames =>
    let r := scan env k acc frames
    match r.vf_class0 with
    | some vf =>
      some { vf_class0 := some vf, frames := r.frames, accessed := r.accessed, reads := r.reads,
             passes := passes + 1, round_count := round_count }
    | none =>
      if round_count = 2 then
        some { vf_class0 := none, frames := r.frames, accessed := r.accessed, reads := r.reads,
               passes := passes + 1, round_count := round_count + 1 }
      else
        evict_loop env fuel (round_count + 1) (passes + 1) r.reads r.accessed r.frames

/-- The function `frame_to_evict ()`; `round_count` starts at 1. -/
def frame_to_evict (fuel : Nat) (env : Env) (s : State) : Option Selection :=
  evict_loop env fuel 1 0 0 s.accessed s.frames

/-- The state after a selection. -/
def Selection.state (r : Selection) (s : State) : State :=
  { s with frames := r.frames, accessed := r.accessed }

/-! ## Write-back of a victim -/

/-- Modelled from the spec: the lookup of the supplemental page table,
`get_suppl_pte` of `vm/page.c`, which is not among the sources: the entry for
the given virtual page, or none. -/
def get_suppl_pte (tbl : List suppl_pte) (upage : Nat) : Option suppl_pte :=
  tbl.find? (fun e => decide (e.upageaddr = upage))

/-- Writes through a `struct suppl_pte *` that the table holds: the entry for
page `e.upageaddr` becomes `e`. -/
def suppl_put : List suppl_pte → suppl_pte → List suppl_pte
  | [], _ => []
  | x :: rest, e => if x.upageaddr = e.upageaddr then e :: rest else x :: suppl_put rest e

/-- The state after the fields of `spte`, an entry of the table of thread `tid`,
have been written. -/
def store_spte (s : State) (tid : Nat) (e : suppl_pte) : State :=
  { s with suppl_page_table := fun t =>
      if t = tid then suppl_put (s.suppl_page_table t) e else s.suppl_page_table t }

/-- Modelled from the spec: a successful `insert_suppl_pte` of `vm/page.c`,
which is not among the sources: the entry is now in the table of thread `tid`. -/
def insert_suppl_pte (s : State) (tid : Nat) (e : suppl_pte) : State :=
  { s with suppl_page_table := fun t =>
      if t = tid then s.suppl_page_table t ++ [e] else s.suppl_page_table t }

/-- The effect of `memset (dst, 0, n)` on memory. -/
def memset_zero (mem : Nat → Nat) (dst n : Nat) : Nat → Nat :=
  fun a => if dst ≤ a ∧ a < dst + n then 0 else mem a

/-- The effect of `pagedir_clear_page (pd, upage)` on the mappings. -/
def pagedir_clear_page (mapped : Nat → Nat → Bool) (tid upage : Nat) : Nat → Nat → Bool :=
  fun t u => if t = tid ∧ u = upage then false else mapped t u

/-- Lines 260-271 of `save_evicted_frame`: `slot` is the value of the local
`swap_slot_idx` at this point. -/
def save_finish (vf : frame) (spte : suppl_pte) (slot : Nat) (s : State) : Res Bool :=
  let s1 := { s with mem := memset_zero s.mem vf.frame PGSIZE }
  let spte1 := { spte with swap_slot_idx := slot }
  if vf.pte = NULL then
    Res.fault (store_spte s1 vf.tid spte1)
  else
    let spte2 := { spte1 with swap_writable := (s.pte_word vf.pte &&& PTE_W) != 0, is_loaded := false }
    Res.ret true
      { store_spte s1 vf.tid spte2 with mapped := pagedir_clear_page s.mapped vf.tid spte.upageaddr }

/-- Lines 244-271 of `save_evicted_frame`, with `spte` resolved. The field
stored in `in_swap` at line 256 is the member `TRUE` of the entry, as written. -/
def save_persist (env : Env) (vf : frame) (spte : suppl_pte) (s : State) : Res Bool :=
  if s.dirty vf.tid spte.upageaddr || !spte.is_file then
    let s1 := { s with swap_out_calls := s.swap_out_calls ++ [spte.upageaddr] }
    if env.swap_ret = env.SWAP_ERROR then
      Res.ret false s1
    else
      save_finish vf { spte with in_swap := spte.TRUE } env.swap_ret s1
  else
    save_finish vf spte env.uninit_slot s

/-- The function `save_evicted_frame (vf)`. Line 239 sets the member `in_sawp`
of a new entry, as written; `calloc` zeroes its other fields, `in_swap`
included, and without memory the write to `spte->upageaddr` goes through
`NULL`. The owner `vf->tid` is taken to be a live thread. -/
def save_evicted_frame (env : Env) (vf : frame) (s : State) : Res Bool :=
  match get_suppl_pte (s.suppl_page_table vf.tid) vf.upage with
  | some spte => save_persist env vf spte s
  | none =>
    if env.calloc_spte then
      let spte : suppl_pte :=
        { upageaddr := vf.upage, in_swap := false, in_sawp := true, TRUE := false,
          is_file := false, is_loaded := false, swap_slot_idx := 0, swap_writable := false }
      if env.insert_ok then
        save_persist env vf spte (insert_suppl_pte s vf.tid spte)
      else
        Res.ret false s
    else
      Res.fault s

/-! ## Entry points -/

/-- The function `evict_frame ()`. The pointer `vf` returned by `frame_to_evict`
is the entry that was just re-appended, the last of the list. -/
def evict_frame (fuel : Nat) (env : Env) (s : State) : Res Nat :=
  match frame_to_evict fuel env s with
  | none => Res.timeout
  | some r =>
    match r.vf_class0 with
    | none => Res.panic "No frame to evict." (r.state s)
    | some vf =>
      match save_evicted_frame env vf (r.state s) with
      | Res.ret false s1 => Res.panic "can't save evicted frame" s1
      | Res.ret true s1 =>
        Res.ret vf.frame
          { s1 with frames := s1.frames.dropLast ++ [{ vf with tid := env.cur, pte := NULL, upage := NULL }] }
      | Res.panic msg s1 => Res.panic msg s1
      | Res.fault s1 => Res.fault s1
      | Res.timeout => Res.timeout

/-- Lines 124-133 of `allocate_frame`: the value of the local `frame` after the
attempt to get a page from the user pool; it stays `NULL` without `PAL_USER`. -/
def try_palloc (env : Env) (flags : Nat) : Nat :=
  if flags &&& PAL_USER ≠ 0 then
    if flags &&& PAL_ZERO ≠ 0 then env.palloc_get_page (PAL_USER ||| PAL_ZERO)
    else env.palloc_get_page PAL_USER
  else NULL

/-- The function `allocate_frame (flags)`. -/
def allocate_frame (fuel : Nat) (env : Env) (flags : Nat) (s : State) : Res Nat :=
  let frame := try_palloc env flags
  if frame ≠ NULL then
    Res.ret frame (add_frame env frame s).2
  else
    match evict_frame fuel env s with
    | Res.ret a s1 => if a = NULL then Res.panic "Evicting frame failed" s1 else Res.ret a s1
    | r => r

/-- The function `free_frame (frame)`. -/
def free_frame (f : Nat) (s : State) : State :=
  let s1 := remove_frame f s
  { s1 with palloc_freed := s1.palloc_freed ++ [f] }

/-! ## Specification vocabulary -/

/-- No page is referenced by its owner while the scan runs. -/
def quiet (env : Env) : Prop := ∀ k t u, env.touched k t u = false

/-- The page an entry backs: owner and virtual page. -/
def page_of (vf : frame) : Nat × Nat := (vf.tid, vf.upage)

/-- The entries back pairwise distinct (owner, virtual page) pairs. -/
def distinct_pages (l : List frame) : Prop := (l.map page_of).Nodup

instance (l : List frame) : Decidable (distinct_pages l) :=
  inferInstanceAs (Decidable (l.map page_of).Nodup)

/-- The accessed bits after those of the pages of `l` have been cleared, front first. -/
def clear_pages (l : List frame) (acc : Nat → Nat → Bool) : Nat → Nat → Bool :=
  l.foldl (fun a x => pagedir_set_accessed a x.tid x.upage false) acc

/-! ## Inputs of the worked examples -/

/-- An environment in which nothing fails and no page is referenced during a scan. -/
def env_quiet : Env :=
  { cur := 9, touched := fun _ _ _ => false, calloc_frame := true, calloc_spte := true,
    insert_ok := true, swap_ret := 3, SWAP_ERROR := 4294967295, uninit_slot := 7,
    uninit_vf_null := false, palloc_get_page := fun _ => NULL }

/-- Frame A of the examples: owner 1, page 1000. -/
def frame_A : frame := { tid := 1, frame := 4096, pte := 100, upage := 1000 }

/-- Frame B of the examples: owner 1, page 2000. -/
def frame_B : frame := { tid := 1, frame := 8192, pte := 104, upage := 2000 }

/-- Frame C of the examples: owner 2, page 1000. -/
def frame_C : frame := { tid := 2, frame := 12288, pte := 108, upage := 1000 }

/-- A state with the given table and accessed bits; every page clean and
mapped, no supplemental entries, every page-table entry writable. -/
def state_of (frames : List frame) (accessed : Nat → Nat → Bool) : State :=
  { frames := frames, accessed := accessed, dirty := fun _ _ => false, mapped := fun _ _ => true,
    suppl_page_table := fun _ => [], pte_word := fun _ => 3, mem := fun _ => 85,
    swap_out_calls := [], palloc_freed := [] }

/-- Table B, A, C in which only the page of A is not accessed. -/
def state_BAC : State :=
  state_of [frame_B, frame_A, frame_C] (fun t u => !decide (t = 1 ∧ u = 1000))

/-- Table A, B, C with A not accessed, B accessed, C not accessed. -/
def state_ABC : State :=
  state_of [frame_A, frame_B, frame_C] (fun t u => decide (t = 1 ∧ u = 2000))

/-- Table A, B, C with every page accessed. -/
def state_all_accessed : State :=
  state_of [frame_A, frame_B, frame_C] (fun _ _ => true)

/-- Whether a call ended in a dereference of an invalid pointer. -/
def Res.is_fault {α : Type} : Res α → Bool
  | .fault _ => true
  | _ => false

/-- The message of the kernel panic a call ended in, if it did. -/
def Res.panic_msg {α : Type} : Res α → Option String
  | .panic msg _ => some msg
  | _ => none

/-- An entry registered by `add_frame` for thread 2 and not yet bound by
`assign_frame`: `pte` and `upage` are still `NULL`. -/
def frame_U : frame := { tid := 2, frame := 16384, pte := NULL, upage := NULL }

/-- Table U, A, B: an unbound entry followed by two bound ones whose pages are
accessed; address 0 of thread 2 is not mapped, so not accessed. -/
def state_unbound_first : State :=
  state_of [frame_U, frame_A, frame_B] (fun t _ => decide (t = 1))

/-- An environment in which thread 1 references its page 1000 again between the
first and the second traversal of a one-entry table (just before read 1). -/
def env_retouch : Env :=
  { env_quiet with touched := fun k t u => decide (k = 1 ∧ t = 1 ∧ u = 1000) }

/-- Table with the single bound entry A, whose page is accessed. -/
def state_only_A : State :=
  state_of [frame_A] (fun t u => decide (t = 1 ∧ u = 1000))

/-- Whether the supplemental entry of the victim's page is file-backed; a page
without an entry gets a fresh one, which is not file-backed. -/
def file_backed (s : State) (vf : frame) : Bool :=
  match get_suppl_pte (s.suppl_page_table vf.tid) vf.upage with
  | some e => e.is_file
  | none => false

/-- The victim's page is dirty or its supplemental entry is not file-backed. -/
def needs_swap (s : State) (vf : frame) : Bool :=
  s.dirty vf.tid vf.upage || !file_backed s vf

/-- Between `s` and `t` exactly one swap-device write was made, of page `upage`. -/
def swap_write_done (s t : State) (upage : Nat) : Prop :=
  t.swap_out_calls = s.swap_out_calls ++ [upage]

/-- The supplemental entry of the page an entry of the frame table backs. -/
def spte_of (s : State) (vf : frame) : Option suppl_pte :=
  get_suppl_pte (s.suppl_page_table vf.tid) vf.upage

/-- An environment in which `insert_suppl_pte` fails. -/
def env_insert_fails : Env := { env_quiet with insert_ok := false }

/-- Table with the single entry A, whose page is dirty and has no supplemental entry. -/
def state_dirty_A : State :=
  { state_of [frame_A] (fun _ _ => false) with dirty := fun _ _ => true }

/-- Table with the single entry A, whose page is clean, not in swap, and has a
file-backed supplemental entry with swap slot 5 recorded. -/
def state_file_A : State :=
  { state_of [frame_A] (fun _ _ => false) with
    suppl_page_table := fun t =>
      if t = 1 then
        [{ upageaddr := 1000, in_swap := false, in_sawp := false, TRUE := false,
           is_file := true, is_loaded := true,
           swap_slot_idx := 5, swap_writable := false }]
      else [] }

/-- The value a call returned, if it returned. -/
def Res.value {α : Type} : Res α → Option α
  | .ret a _ => some a
  | _ => none

/-- The physical frames that have an entry in the table, in table order. -/
def frames_of (s : State) : List Nat := s.frames.map (fun vf => vf.frame)

/-- No two entries of the frame table have the same physical-frame address. -/
def frames_unique (s : State) : Prop := (frames_of s).Nodup

instance (s : State) : Decidable (frames_unique s) :=
  inferInstanceAs (Decidable (frames_of s).Nodup)

/-- An environment in which the physical allocator hands out frame 20480 and
`calloc` in `add_frame` fails. -/
def env_calloc_fails : Env :=
  { env_quiet with calloc_frame := false, palloc_get_page := fun _ => 20480 }

/-- An environment in which the physical allocator hands out frame 20480. -/
def env_palloc : Env := { env_quiet with palloc_get_page := fun _ => 20480 }

/-- The state with an empty frame table. -/
def state_empty : State := state_of [] (fun _ _ => false)

/-- Lines 127-133 of `allocate_frame`: the options with which
`palloc_get_page` is called, none when it is not called. -/
def palloc_request (flags : Nat) : Option Nat :=
  if flags &&& PAL_USER ≠ 0 then
    if flags &&& PAL_ZERO ≠ 0 then some (PAL_USER ||| PAL_ZERO) else some PAL_USER
  else none

/-- Lines 141-142 of `allocate_frame`: what becomes of the outcome of
`evict_frame ()`. -/
def check_evicted : Res Nat → Res Nat
  | Res.ret a s1 => if a = NULL then Res.panic "Evicting frame failed" s1 else Res.ret a s1
  | r => r

/-- An environment in which the swap device answers every write with the error value. -/
def env_swap_error : Env := { env_quiet with swap_ret := 4294967295 }

/-! ## Lock events

The calls of `lock_acquire` and `lock_release` and the accesses to the frame
list that each function makes, in program order. -/

/-- The locks `frame.c` acquires: `vm_lock`, taken by `remove_frame`,
`get_frame` and `add_frame` around their work on the list, and `eviction_lock`,
taken by `evict_frame`. -/
inductive lock_id where
  | vm_lock : lock_id
  | eviction_lock : lock_id
deriving DecidableEq, Repr

/-- One step of a function that matters for locking. -/
inductive Event where
  /-- the call `lock_acquire (&l)` -/
  | acquire (l : lock_id) : Event
  /-- the call `lock_release (&l)` -/
  | release (l : lock_id) : Event
  /-- a read of the list `frames` or of an entry linked in it -/
  | traverse : Event
  /-- a write to the list `frames` or to an entry linked in it -/
  | mutate : Event
deriving DecidableEq, Repr

/-- Events of the loop of `remove_frame` from the entry at the head: each
entry visited is read; the matching one is unlinked. -/
def remove_frame_loop_events (f : Nat) : List frame → List Event
  | [] => []
  | vf :: rest =>
    Event.traverse :: (if vf.frame = f then [Event.mutate] else remove_frame_loop_events f rest)

/-- Events of `remove_frame (frame)`; `list_head` is the first read. -/
def remove_frame_events (f : Nat) (s : State) : List Event :=
  [Event.acquire lock_id.vm_lock, Event.traverse] ++ remove_frame_loop_events f s.frames ++
    [Event.release lock_id.vm_lock]

/-- Events of the loop of `get_frame` from the entry at the head. -/
def get_frame_loop_events (f : Nat) : List frame → List Event
  | [] => []
  | x :: rest => Event.traverse :: (if x.frame = f then [] else get_frame_loop_events f rest)

/-- Events of `get_frame (frame)`; `list_head` is the first read. -/
def get_frame_events (f : Nat) (s : State) : List Event :=
  [Event.acquire lock_id.vm_lock, Event.traverse] ++ get_frame_loop_events f s.frames ++
    [Event.release lock_id.vm_lock]

/-- Events of `add_frame (frame)`: the new record is linked by `list_push_back`;
the writes before that go to a record that is not yet in the list. -/
def add_frame_events (env : Env) : List Event :=
  if env.calloc_frame then
    [Event.acquire lock_id.vm_lock, Event.mutate, Event.release lock_id.vm_lock]
  else []

/-- Events of `assign_frame (frame, pte, upage)`: the call of `get_frame`, then
the writes of `vf->pte` and `vf->upage` when `vf` is not `NULL`. -/
def assign_frame_events (env : Env) (f : Nat) (s : State) : List Event :=
  get_frame_events f s ++
    (match get_frame env f s with
     | frame_ptr.null => []
     | _ => [Event.mutate, Event.mutate])

/-- Events of the inner loop of `frame_to_evict`, with the same arguments as
`scan`: each entry visited is read; the victim is unlinked by `list_remove` and
linked again by `list_push_back`. -/
def scan_events (env : Env) : Nat → (Nat → Nat → Bool) → List frame → List Event
  | _, _, [] => []
  | k, acc, vf :: rest =>
    Event.traverse ::
      (if touch env k acc vf.tid vf.upage then
         scan_events env (k + 1) (pagedir_set_accessed (touch env k acc) vf.tid vf.upage false) rest
       else [Event.mutate, Event.mutate])

/-- Events of the outer loop of `frame_to_evict`, with the same arguments as
`evict_loop`; every traversal starts with the read `list_head`. -/
def evict_loop_events (env : Env) : Nat → Nat → Nat → (Nat → Nat → Bool) → List frame → List Event
  | 0, _, _, _, _ => []
  | fuel + 1, round_count, k, acc, frames =>
    let r := scan env k acc frames
    Event.traverse :: scan_events env k acc frames ++
      (match r.vf_class0 with
       | some _ => []
       | none =>
         if round_count = 2 then []
         else evict_loop_events env fuel (round_count + 1) r.reads r.accessed r.frames)

/-- Events of `frame_to_evict ()`. -/
def frame_to_evict_events (fuel : Nat) (env : Env) (s : State) : List Event :=
  evict_loop_events env fuel 1 0 s.accessed s.frames

/-- Whether, starting with `vm_lock` held or not, every access to the frame
table happens while `vm_lock` is held, every acquire finds it free, every
release finds it held, and it is released at the end. -/
def table_locked : Bool → List Event → Bool
  | held, [] => !held
  | held, Event.acquire lock_id.vm_lock :: rest => !held && table_locked true rest
  | held, Event.release lock_id.vm_lock :: rest => held && table_locked false rest
  | held, Event.acquire lock_id.eviction_lock :: rest => table_locked held rest
  | held, Event.release lock_id.eviction_lock :: rest => table_locked held rest
  | held, Event.traverse :: rest => held && table_locked held rest
  | held, Event.mutate :: rest => held && table_locked held rest

/-- The frame table is only traversed or mutated between an acquire and the
matching release of `vm_lock`, and the function returns with it released. -/
def lock_discipline (events : List Event) : Bool := table_locked false events

/-! # Theorems -/

/-! ## Lemmas on the scan -/

theorem touch_quiet (env : Env) (hq : quiet env) (k : Nat) (acc : Nat → Nat → Bool) :
    touch env k acc = acc := by
  funext t u
  simp [touch, hq k t u]

theorem set_accessed_other (acc : Nat → Nat → Bool) (x y : frame) (v : Bool)
    (h : page_of y ≠ page_of x) :
    pagedir_set_accessed acc x.tid x.upage v y.tid y.upage = acc y.tid y.upage := by
  unfold pagedir_set_accessed
  split
  · rename_i hh
    exact absurd (by simp [page_of, hh.1, hh.2]) h
  · rfl

theorem clear_pages_mem (l : List frame) :
    ∀ (acc : Nat → Nat → Bool) (t u : Nat), (t, u) ∈ l.map page_of → clear_pages l acc t u = false := by
  induction l using List.reverseRecOn with
  | nil => intro acc t u h; simp at h
  | append_singleton l x ih =>
    intro acc t u h
    simp only [clear_pages, List.foldl_append, List.foldl_cons, List.foldl_nil]
    unfold pagedir_set_accessed
    split
    · rfl
    · rename_i hne
      have : (t, u) ∈ l.map page_of := by
        simp only [List.map_append, List.mem_append, List.map_cons, List.map_nil,
          List.mem_singleton] at h
        rcases h with h | h
        · exact h
        · exfalso; apply hne
          simp only [page_of, Prod.mk.injEq] at h
          exact h
      exact ih acc t u this

theorem clear_pages_not_mem (l : List frame) :
    ∀ (acc : Nat → Nat → Bool) (t u : Nat), (t, u) ∉ l.map page_of → clear_pages l acc t u = acc t u := by
  induction l with
  | nil => intro acc t u _; rfl
  | cons x l ih =>
    intro acc t u h
    simp only [List.map_cons, List.mem_cons, not_or] at h
    simp only [clear_pages, List.foldl_cons]
    have := ih (pagedir_set_accessed acc x.tid x.upage false) t u h.2
    simp only [clear_pages] at this
    rw [this]
    unfold pagedir_set_accessed
    split
    · rename_i hh
      exact absurd (by simp [page_of, hh.1, hh.2]) h.1
    · rfl

/-- A quiet scan over entries that are all accessed finds nothing and clears every bit. -/
theorem scan_all_accessed (env : Env) (hq : quiet env) (l : List frame) :
    ∀ (k : Nat) (acc : Nat → Nat → Bool), (∀ x ∈ l, acc x.tid x.upage = true) → distinct_pages l →
      scan env k acc l =
        { vf_class0 := none, frames := l, accessed := clear_pages l acc, reads := k + l.length } := by
  induction l with
  | nil => intro k acc _ _; rfl
  | cons x l ih =>
    intro k acc hall hd
    have hx : acc x.tid x.upage = true := hall x (List.mem_cons_self _ _)
    simp only [distinct_pages, List.map_cons, List.nodup_cons] at hd
    have hrest : ∀ y ∈ l, pagedir_set_accessed acc x.tid x.upage false y.tid y.upage = true := by
      intro y hy
      rw [set_accessed_other]
      · exact hall y (List.mem_cons_of_mem _ hy)
      · intro hxy
        exact hd.1 (hxy ▸ List.mem_map_of_mem page_of hy)
    simp only [scan, touch_quiet env hq, hx, if_true]
    rw [ih (k + 1) _ hrest hd.2]
    simp only [clear_pages, List.foldl_cons, List.length_cons, Scan.mk.injEq, true_and]
    omega

/-- A quiet scan stops at the first entry whose page is not accessed. -/
theorem scan_first_unaccessed (env : Env) (hq : quiet env) (vf : frame) (post : List frame)
    (pre : List frame) :
    ∀ (k : Nat) (acc : Nat → Nat → Bool), (∀ x ∈ pre, acc x.tid x.upage = true) →
      acc vf.tid vf.upage = false → distinct_pages pre →
      scan env k acc (pre ++ vf :: post) =
        { vf_class0 := some vf, frames := pre ++ (post ++ [vf]), accessed := clear_pages pre acc,
          reads := k + pre.length + 1 } := by
  induction pre with
  | nil =>
    intro k acc _ hv _
    simp [scan, touch_quiet env hq, hv, clear_pages]
  | cons x pre ih =>
    intro k acc hall hv hd
    have hx : acc x.tid x.upage = true := hall x (List.mem_cons_self _ _)
    simp only [distinct_pages, List.map_cons, List.nodup_cons] at hd
    have hrest : ∀ y ∈ pre, pagedir_set_accessed acc x.tid x.upage false y.tid y.upage = true := by
      intro y hy
      rw [set_accessed_other]
      · exact hall y (List.mem_cons_of_mem _ hy)
      · intro hxy
        exact hd.1 (hxy ▸ List.mem_map_of_mem page_of hy)
    have hv2 : pagedir_set_accessed acc x.tid x.upage false vf.tid vf.upage = false := by
      unfold pagedir_set_accessed
      split
      · rfl
      · exact hv
    simp only [List.cons_append, scan, touch_quiet env hq, hx, if_true, List.append_eq]
    rw [ih (k + 1) _ hrest hv2 hd.2]
    simp only [clear_pages, List.foldl_cons, List.length_cons, Scan.mk.injEq, true_and]
    omega

/-- The first element of a list at which a test fails. -/
theorem exists_first_false {α : Type} (p : α → Bool) (l : List α) (h : ∃ x ∈ l, p x = false) :
    ∃ pre v post, l = pre ++ v :: post ∧ (∀ x ∈ pre, p x = true) ∧ p v = false := by
  induction l with
  | nil => obtain ⟨x, hx, _⟩ := h; simp at hx
  | cons a l ih =>
    cases ha : p a with
    | false => exact ⟨[], a, l, rfl, by simp, ha⟩
    | true =>
      have : ∃ x ∈ l, p x = false := by
        obtain ⟨x, hx, hp⟩ := h
        rcases List.mem_cons.mp hx with rfl | hx
        · rw [ha] at hp; cases hp
        · exact ⟨x, hx, hp⟩
      obtain ⟨pre, v, post, hl, hpre, hv⟩ := ih this
      refine ⟨a :: pre, v, post, by rw [hl]; rfl, ?_, hv⟩
      intro x hx
      rcases List.mem_cons.mp hx with rfl | hx
      · exact ha
      · exact hpre x hx

/-! ## Victim selection: the first unaccessed entry -/

theorem env_quiet_is_quiet : quiet env_quiet := fun _ _ _ => rfl

/-- C1: on a table whose entries back pairwise distinct pages and that holds an
entry whose page is not accessed, with no page referenced during the scan,
`frame_to_evict` returns the first entry in table order whose page is not
accessed; the accessed bit of every entry before it is cleared and the accessed
bits of the entries after it are unchanged. -/
theorem frame_to_evict_first_unaccessed (fuel : Nat) (env : Env) (s : State)
    (hfuel : 1 ≤ fuel) (hq : quiet env) (hd : distinct_pages s.frames)
    (hex : ∃ x ∈ s.frames, s.accessed x.tid x.upage = false) :
    ∃ pre vf post r, s.frames = pre ++ vf :: post ∧
      (∀ x ∈ pre, s.accessed x.tid x.upage = true) ∧ s.accessed vf.tid vf.upage = false ∧
      frame_to_evict fuel env s = some r ∧ r.vf_class0 = some vf ∧
      (∀ x ∈ pre, r.accessed x.tid x.upage = false) ∧
      (∀ x ∈ post, r.accessed x.tid x.upage = s.accessed x.tid x.upage) := by
  obtain ⟨pre, vf, post, hl, hpre, hv⟩ :=
    exists_first_false (fun x => s.accessed x.tid x.upage) s.frames hex
  obtain ⟨n, rfl⟩ : ∃ n, fuel = n + 1 := ⟨fuel - 1, by omega⟩
  have hdl : distinct_pages (pre ++ vf :: post) := hl ▸ hd
  have hdpre : distinct_pages pre := by
    unfold distinct_pages at hdl ⊢
    rw [List.map_append] at hdl
    exact (List.nodup_append.mp hdl).1
  have hsc := scan_first_unaccessed env hq vf post pre 0 s.accessed hpre hv hdpre
  refine ⟨pre, vf, post,
    { vf_class0 := some vf, frames := pre ++ (post ++ [vf]), accessed := clear_pages pre s.accessed,
      reads := 0 + pre.length + 1, passes := 0 + 1, round_count := 1 }, hl, hpre, hv, ?_, rfl, ?_, ?_⟩
  · simp only [frame_to_evict, evict_loop, hl, hsc]
  · intro x hx
    exact clear_pages_mem pre s.accessed x.tid x.upage (List.mem_map_of_mem page_of hx)
  · intro x hx
    apply clear_pages_not_mem
    intro hmem
    unfold distinct_pages at hdl
    rw [List.map_append, List.map_cons] at hdl
    have hdis := (List.nodup_append.mp hdl).2.2
    exact hdis hmem (List.mem_cons_of_mem _ (List.mem_map_of_mem page_of hx))

/-- Witness of C1 on the table B, A, C in which only A is not accessed. -/
theorem frame_to_evict_first_unaccessed_witness :
    ∃ pre vf post r, state_BAC.frames = pre ++ vf :: post ∧
      (∀ x ∈ pre, state_BAC.accessed x.tid x.upage = true) ∧
      state_BAC.accessed vf.tid vf.upage = false ∧
      frame_to_evict 2 env_quiet state_BAC = some r ∧ r.vf_class0 = some vf ∧
      (∀ x ∈ pre, r.accessed x.tid x.upage = false) ∧
      (∀ x ∈ post, r.accessed x.tid x.upage = state_BAC.accessed x.tid x.upage) :=
  frame_to_evict_first_unaccessed 2 env_quiet state_BAC (by decide) env_quiet_is_quiet
    (by decide) ⟨frame_A, by decide, rfl⟩

/-- C2, as stated, fails on the table A (not accessed), B (accessed), C (not
accessed): `frame_to_evict` returns A but does not clear the accessed bit of B,
which it never visits. -/
theorem frame_to_evict_ABC_does_not_clear_B :
    ¬ ∃ r, frame_to_evict 2 env_quiet state_ABC = some r ∧ r.vf_class0 = some frame_A ∧
        r.accessed frame_B.tid frame_B.upage = false ∧
        r.accessed frame_C.tid frame_C.upage = state_ABC.accessed frame_C.tid frame_C.upage := by
  rintro ⟨r, hr, -, hB, -⟩
  have hev : (frame_to_evict 2 env_quiet state_ABC).map
      (fun r => r.accessed frame_B.tid frame_B.upage) = some true := by decide
  rw [hr] at hev
  simp only [Option.map_some', Option.some.injEq] at hev
  rw [hev] at hB
  cases hB

/-- C2 (amended): on a table A (not accessed), B (accessed), C (not accessed),
with no page referenced during the scan, `frame_to_evict` returns A after a
single traversal that stops at A; the accessed bits of B and C are both left as
they were, so B stays accessed. -/
theorem frame_to_evict_three_frames (fuel : Nat) (env : Env) (s : State) (A B C : frame)
    (hfuel : 1 ≤ fuel) (hq : quiet env) (hf : s.frames = [A, B, C])
    (hA : s.accessed A.tid A.upage = false) (hB : s.accessed B.tid B.upage = true)
    (hC : s.accessed C.tid C.upage = false) :
    ∃ r, frame_to_evict fuel env s = some r ∧ r.vf_class0 = some A ∧ r.passes = 1 ∧
      r.frames = [B, C, A] ∧
      r.accessed B.tid B.upage = true ∧ r.accessed C.tid C.upage = false := by
  obtain ⟨n, rfl⟩ : ∃ n, fuel = n + 1 := ⟨fuel - 1, by omega⟩
  have hsc := scan_first_unaccessed env hq A [B, C] [] 0 s.accessed (by simp) hA
    (by simp [distinct_pages])
  refine ⟨{ vf_class0 := some A, frames := [B, C, A], accessed := s.accessed,
            reads := 0 + 0 + 1, passes := 0 + 1, round_count := 1 }, ?_, rfl, rfl, rfl, hB, hC⟩
  simp only [List.nil_append] at hsc
  simp only [frame_to_evict, evict_loop, hf, hsc]
  rfl

/-- Witness of the amended C2 on the example table A, B, C. -/
theorem frame_to_evict_three_frames_witness :
    ∃ r, frame_to_evict 2 env_quiet state_ABC = some r ∧ r.vf_class0 = some frame_A ∧
      r.passes = 1 ∧ r.frames = [frame_B, frame_C, frame_A] ∧
      r.accessed frame_B.tid frame_B.upage = true ∧
      r.accessed frame_C.tid frame_C.upage = false :=
  frame_to_evict_three_frames 2 env_quiet state_ABC frame_A frame_B frame_C (by decide)
    env_quiet_is_quiet rfl rfl rfl rfl

/-! ## Victim selection: every page accessed -/

/-- C3: on a non-empty table whose entries back pairwise distinct pages that are
all accessed, with no page referenced during the scan, `frame_to_evict` makes
exactly two traversals, returns the entry that was first in table order, and
leaves the accessed bit of every entry clear. -/
theorem frame_to_evict_all_accessed (fuel : Nat) (env : Env) (s : State)
    (hfuel : 2 ≤ fuel) (hq : quiet env) (hne : s.frames ≠ [])
    (hall : ∀ x ∈ s.frames, s.accessed x.tid x.upage = true) (hd : distinct_pages s.frames) :
    ∃ r, frame_to_evict fuel env s = some r ∧ r.passes = 2 ∧
      (∀ x ∈ s.frames, r.accessed x.tid x.upage = false) ∧
      r.vf_class0 = s.frames.head? := by
  obtain ⟨n, rfl⟩ : ∃ n, fuel = n + 2 := ⟨fuel - 2, by omega⟩
  obtain ⟨v, rest, hl⟩ := List.exists_cons_of_ne_nil hne
  have h1 := scan_all_accessed env hq s.frames 0 s.accessed hall hd
  have hv : clear_pages s.frames s.accessed v.tid v.upage = false :=
    clear_pages_mem s.frames s.accessed v.tid v.upage
      (List.mem_map_of_mem page_of (hl ▸ List.mem_cons_self v rest))
  have h2 := scan_first_unaccessed env hq v rest [] (0 + s.frames.length)
    (clear_pages s.frames s.accessed) (by simp) hv (by simp [distinct_pages])
  simp only [List.nil_append] at h2
  rw [← hl] at h2
  refine ⟨{ vf_class0 := some v, frames := rest ++ [v],
            accessed := clear_pages [] (clear_pages s.frames s.accessed),
            reads := 0 + s.frames.length + ([] : List frame).length + 1, passes := 0 + 1 + 1, round_count := 1 + 1 },
    ?_, rfl, ?_, ?_⟩
  · simp only [frame_to_evict, evict_loop, h1, h2]
    simp
  · intro x hx
    exact clear_pages_mem s.frames s.accessed x.tid x.upage (List.mem_map_of_mem page_of hx)
  · rw [hl]; rfl

/-- Witness of C3 on the example table A, B, C with every page accessed. -/
theorem frame_to_evict_all_accessed_witness :
    ∃ r, frame_to_evict 2 env_quiet state_all_accessed = some r ∧ r.passes = 2 ∧
      (∀ x ∈ state_all_accessed.frames, r.accessed x.tid x.upage = false) ∧
      r.vf_class0 = state_all_accessed.frames.head? :=
  frame_to_evict_all_accessed 2 env_quiet state_all_accessed (by decide) env_quiet_is_quiet
    (by decide) (fun _ _ => rfl) (by decide)

/-! ## Victim selection: unbound entries and the second traversal -/

/-- C4 fails on the code: on the table U, A, B, whose first entry U is not yet
bound (`upage` is `NULL`), `frame_to_evict` does not skip U but returns it, and
`evict_frame` then dereferences the `NULL` `pte` of U in `save_evicted_frame`. -/
theorem frame_to_evict_returns_unbound_entry :
    frame_U.upage = NULL ∧
    (frame_to_evict 2 env_quiet state_unbound_first).map (fun r => r.vf_class0) = some (some frame_U) ∧
    (evict_frame 2 env_quiet state_unbound_first).is_fault = true := by
  decide

/-- C5 fails on the code: on the one-entry table A, whose page is accessed and
is referenced again before the second traversal, `frame_to_evict` makes two
traversals and returns no entry, although A is the first entry the second
traversal meets; `evict_frame` then panics with "No frame to evict.". -/
theorem frame_to_evict_second_pass_returns_null :
    state_only_A.frames = [frame_A] ∧ frame_A.upage ≠ NULL ∧
    (frame_to_evict 2 env_retouch state_only_A).map (fun r => (r.vf_class0, r.passes)) = some (none, 2) ∧
    (evict_frame 2 env_retouch state_only_A).panic_msg = some "No frame to evict." := by
  decide

/-! ## Write-back of a victim -/

theorem get_suppl_pte_upageaddr (tbl : List suppl_pte) (upage : Nat) (e : suppl_pte)
    (h : get_suppl_pte tbl upage = some e) : e.upageaddr = upage := by
  have := List.find?_some h
  simpa using this

theorem get_suppl_pte_put (tbl : List suppl_pte) (e e0 : suppl_pte)
    (h : get_suppl_pte tbl e.upageaddr = some e0) :
    get_suppl_pte (suppl_put tbl e) e.upageaddr = some e := by
  induction tbl with
  | nil => simp [get_suppl_pte] at h
  | cons x rest ih =>
    by_cases hx : x.upageaddr = e.upageaddr
    · simp [suppl_put, hx, get_suppl_pte]
    · have h2 : get_suppl_pte rest e.upageaddr = some e0 := by
        simpa [get_suppl_pte, List.find?_cons, hx] using h
      simpa [suppl_put, hx, get_suppl_pte, List.find?_cons] using ih h2

theorem get_suppl_pte_insert (tbl : List suppl_pte) (e : suppl_pte)
    (h : get_suppl_pte tbl e.upageaddr = none) :
    get_suppl_pte (tbl ++ [e]) e.upageaddr = some e := by
  induction tbl with
  | nil => simp [get_suppl_pte]
  | cons x rest ih =>
    by_cases hx : x.upageaddr = e.upageaddr
    · simp [get_suppl_pte, List.find?_cons, hx] at h
    · have h2 : get_suppl_pte rest e.upageaddr = none := by
        simpa [get_suppl_pte, List.find?_cons, hx] using h
      simpa [get_suppl_pte, List.find?_cons, hx] using ih h2

/-- The entry `save_finish` leaves in the table, whichever way it ends. -/
theorem save_finish_entry (vf : frame) (spte e0 : suppl_pte) (slot : Nat) (s : State)
    (hin : get_suppl_pte (s.suppl_page_table vf.tid) spte.upageaddr = some e0) :
    ∃ t e, (save_finish vf spte slot s).final = some t ∧
      t.swap_out_calls = s.swap_out_calls ∧ t.frames = s.frames ∧
      get_suppl_pte (t.suppl_page_table vf.tid) spte.upageaddr = some e ∧
      e.swap_slot_idx = slot ∧ e.in_swap = spte.in_swap := by
  unfold save_finish
  by_cases hp : vf.pte = NULL
  · simp only [hp, if_true, Res.final]
    refine ⟨_, { spte with swap_slot_idx := slot }, rfl, rfl, rfl, ?_, rfl, rfl⟩
    simp only [store_spte, if_true]
    exact get_suppl_pte_put (s.suppl_page_table vf.tid) { spte with swap_slot_idx := slot } e0 hin
  · simp only [hp, if_false, Res.final]
    refine ⟨_, { spte with swap_slot_idx := slot,
                           swap_writable := (s.pte_word vf.pte &&& PTE_W) != 0,
                           is_loaded := false }, rfl, rfl, rfl, ?_, rfl, rfl⟩
    simp only [store_spte, if_true]
    exact get_suppl_pte_put (s.suppl_page_table vf.tid) _ e0 hin

/-- What `save_persist` does to the swap device and to the entry. -/
theorem save_persist_spec (env : Env) (vf : frame) (spte e0 : suppl_pte) (s : State)
    (hin : get_suppl_pte (s.suppl_page_table vf.tid) spte.upageaddr = some e0) :
    ∃ t, (save_persist env vf spte s).final = some t ∧ t.frames = s.frames ∧
      ((s.dirty vf.tid spte.upageaddr || !spte.is_file) = true →
        t.swap_out_calls = s.swap_out_calls ++ [spte.upageaddr]) ∧
      ((s.dirty vf.tid spte.upageaddr || !spte.is_file) = false →
        t.swap_out_calls = s.swap_out_calls) ∧
      ((s.dirty vf.tid spte.upageaddr || !spte.is_file) = true → env.swap_ret ≠ env.SWAP_ERROR →
        ∃ e, get_suppl_pte (t.suppl_page_table vf.tid) spte.upageaddr = some e ∧
          e.swap_slot_idx = env.swap_ret ∧ e.in_swap = spte.TRUE) := by
  unfold save_persist
  cases hc : (s.dirty vf.tid spte.upageaddr || !spte.is_file) with
  | false =>
    obtain ⟨t, e, ht, hcalls, hfr, -, -, -⟩ := save_finish_entry vf spte e0 env.uninit_slot s hin
    refine ⟨t, ?_, hfr, ?_, fun _ => hcalls, ?_⟩
    · simpa using ht
    · intro h; cases h
    · intro h; cases h
  | true =>
    by_cases herr : env.swap_ret = env.SWAP_ERROR
    · refine ⟨{ s with swap_out_calls := s.swap_out_calls ++ [spte.upageaddr] }, ?_, rfl,
        fun _ => rfl, ?_, fun _ h => absurd herr h⟩
      · simp [herr, Res.final]
      · intro h; cases h
    · obtain ⟨t, e, ht, hcalls, hfr, hlook, hslot, hsw⟩ :=
        save_finish_entry vf { spte with in_swap := spte.TRUE } e0 env.swap_ret
          { s with swap_out_calls := s.swap_out_calls ++ [spte.upageaddr] } hin
      refine ⟨t, ?_, hfr, fun _ => hcalls, ?_, fun _ _ => ⟨e, hlook, hslot, hsw⟩⟩
      · simpa [herr] using ht
      · intro h; cases h

/-- C6, as stated, fails when the victim's page has no supplemental entry and
`insert_suppl_pte` fails: the page of A is dirty (and, having no entry, not
file-backed), yet `save_evicted_frame` returns false before any swap write. -/
theorem save_evicted_frame_insert_fails_no_write :
    needs_swap state_dirty_A frame_A = true ∧
    (save_evicted_frame env_insert_fails frame_A state_dirty_A).final.map
      (fun t => t.swap_out_calls) = some state_dirty_A.swap_out_calls := by
  decide

/-- C6 (amended): for every victim whose supplemental entry exists, or is
created and inserted by the call, `save_evicted_frame` performs a swap-device
write (a call of `vm_swap_out`) of the victim's page if and only if the page is
dirty or its entry is not file-backed; a clean file-backed page causes no swap write; and whenever the
write is performed and succeeds the entry's `swap_slot_idx` is the slot the
write returned. -/
theorem save_evicted_frame_swap_write (env : Env) (vf : frame) (s : State)
    (h : (spte_of s vf).isSome = true ∨ (env.calloc_spte = true ∧ env.insert_ok = true)) :
    ∃ t, (save_evicted_frame env vf s).final = some t ∧
      (swap_write_done s t vf.upage ↔ needs_swap s vf = true) ∧
      (needs_swap s vf = false → t.swap_out_calls = s.swap_out_calls) ∧
      (needs_swap s vf = true → env.swap_ret ≠ env.SWAP_ERROR →
        ∃ e, spte_of t vf = some e ∧ e.swap_slot_idx = env.swap_ret) := by
  have key : ∀ (spte : suppl_pte) (s0 : State), spte.upageaddr = vf.upage →
      get_suppl_pte (s0.suppl_page_table vf.tid) spte.upageaddr = some spte →
      s0.dirty = s.dirty → s0.swap_out_calls = s.swap_out_calls →
      spte.is_file = file_backed s vf →
      ∃ t, (save_persist env vf spte s0).final = some t ∧
        (swap_write_done s t vf.upage ↔ needs_swap s vf = true) ∧
        (needs_swap s vf = false → t.swap_out_calls = s.swap_out_calls) ∧
        (needs_swap s vf = true → env.swap_ret ≠ env.SWAP_ERROR →
          ∃ e, spte_of t vf = some e ∧ e.swap_slot_idx = env.swap_ret) := by
    intro spte s0 hup hin hdirty hcalls hfile
    obtain ⟨t, ht, -, hyes, hno, hslot0⟩ := save_persist_spec env vf spte spte s0 hin
    have hslot : (s0.dirty vf.tid spte.upageaddr || !spte.is_file) = true →
        env.swap_ret ≠ env.SWAP_ERROR →
        ∃ e, get_suppl_pte (t.suppl_page_table vf.tid) spte.upageaddr = some e ∧
          e.swap_slot_idx = env.swap_ret := by
      intro h1 h2
      obtain ⟨e, he1, he2, -⟩ := hslot0 h1 h2
      exact ⟨e, he1, he2⟩
    have hcond : (s0.dirty vf.tid spte.upageaddr || !spte.is_file) = needs_swap s vf := by
      simp only [needs_swap, hdirty, hup, hfile]
    rw [hcond] at hyes hno hslot
    rw [hup, hcalls] at hyes
    rw [hcalls] at hno
    rw [hup] at hslot
    refine ⟨t, ht, ⟨?_, hyes⟩, hno, hslot⟩
    intro hdone
    cases hn : needs_swap s vf with
    | true => rfl
    | false =>
      have h1 := hno hn
      unfold swap_write_done at hdone
      rw [h1] at hdone
      have := congrArg List.length hdone
      simp at this
  unfold save_evicted_frame
  cases hl : get_suppl_pte (s.suppl_page_table vf.tid) vf.upage with
  | some spte =>
    have hup := get_suppl_pte_upageaddr _ _ _ hl
    exact key spte s hup (hup ▸ hl) rfl rfl (by simp [file_backed, hl])
  | none =>
    rcases h with h | ⟨hc, hi⟩
    · simp [spte_of, hl] at h
    · simp only [hc, hi, if_true]
      refine key _ _ rfl ?_ rfl rfl (by simp [file_backed, hl])
      simp only [insert_suppl_pte, if_true]
      exact get_suppl_pte_insert _ _ hl

/-- Witness of the amended C6: the dirty page of A, which has no supplemental
entry yet, is written to swap and its new entry records the returned slot 3. -/
theorem save_evicted_frame_swap_write_witness :
    ∃ t, (save_evicted_frame env_quiet frame_A state_dirty_A).final = some t ∧
      (swap_write_done state_dirty_A t frame_A.upage ↔ needs_swap state_dirty_A frame_A = true) ∧
      (needs_swap state_dirty_A frame_A = false → t.swap_out_calls = state_dirty_A.swap_out_calls) ∧
      (needs_swap state_dirty_A frame_A = true → env_quiet.swap_ret ≠ env_quiet.SWAP_ERROR →
        ∃ e, spte_of t frame_A = some e ∧ e.swap_slot_idx = env_quiet.swap_ret) :=
  save_evicted_frame_swap_write env_quiet frame_A state_dirty_A (Or.inr ⟨rfl, rfl⟩)

/-- C7 fails on the code: the page of A is clean and file-backed, with swap
slot 5 recorded in its supplemental entry; `save_evicted_frame` skips the swap
write but then stores the never-assigned local `swap_slot_idx` (here 7) in the
entry, so the recorded slot is no longer 5. -/
theorem save_evicted_frame_skip_overwrites_slot :
    needs_swap state_file_A frame_A = false ∧
    (spte_of state_file_A frame_A).map (fun e => (e.swap_slot_idx, e.in_swap)) = some (5, false) ∧
    env_quiet.uninit_slot = 7 ∧
    ((save_evicted_frame env_quiet frame_A state_file_A).final.bind
      (fun t => spte_of t frame_A)).map (fun e => (e.swap_slot_idx, e.in_swap)) = some (7, false) := by
  decide

/-- The flag `in_swap` after a successful swap write: the dirty page of A has no
supplemental entry; line 239 sets the member `in_sawp` of the new entry and
line 256 copies its member `TRUE`, which `calloc` zeroed, so the entry records
slot 3 and `in_swap` is still false. -/
theorem save_evicted_frame_in_swap_after_write :
    ((save_evicted_frame env_quiet frame_A state_dirty_A).final.bind
      (fun t => spte_of t frame_A)).map (fun e => (e.swap_slot_idx, e.in_swap, e.in_sawp)) =
      some (3, false, true) := by
  decide

/-! ## Shape of the table after a selection -/

/-- A scan either finds nothing and leaves the list as it is, or moves the
entry it returns to the back. -/
theorem scan_shape (env : Env) (l : List frame) :
    ∀ (k : Nat) (acc : Nat → Nat → Bool),
      ((scan env k acc l).vf_class0 = none ∧ (scan env k acc l).frames = l) ∨
      ∃ pre vf post, l = pre ++ vf :: post ∧ (scan env k acc l).vf_class0 = some vf ∧
        (scan env k acc l).frames = pre ++ (post ++ [vf]) := by
  induction l with
  | nil => intro k acc; exact Or.inl ⟨rfl, rfl⟩
  | cons x l ih =>
    intro k acc
    by_cases hx : touch env k acc x.tid x.upage = true
    · simp only [scan, hx, if_true]
      rcases ih (k + 1) (pagedir_set_accessed (touch env k acc) x.tid x.upage false) with
        ⟨h1, h2⟩ | ⟨pre, vf, post, h1, h2, h3⟩
      · exact Or.inl ⟨h1, by rw [h2]⟩
      · exact Or.inr ⟨x :: pre, vf, post, by rw [h1]; rfl, h2, by rw [h3]; rfl⟩
    · simp only [scan, hx]
      exact Or.inr ⟨[], x, l, rfl, rfl, rfl⟩

/-- The outer loop either returns nothing and leaves the list as it is, or
returns an entry that it has moved to the back. -/
theorem evict_loop_shape (env : Env) (fuel : Nat) :
    ∀ (round_count passes k : Nat) (acc : Nat → Nat → Bool) (l : List frame) (r : Selection),
      evict_loop env fuel round_count passes k acc l = some r →
      (r.vf_class0 = none ∧ r.frames = l) ∨
      ∃ pre vf post, l = pre ++ vf :: post ∧ r.vf_class0 = some vf ∧
        r.frames = pre ++ (post ++ [vf]) := by
  induction fuel with
  | zero => intro rc p k acc l r h; simp [evict_loop] at h
  | succ n ih =>
    intro rc p k acc l r h
    rcases scan_shape env l k acc with ⟨h1, h2⟩ | ⟨pre, vf, post, h1, h2, h3⟩
    · simp only [evict_loop, h1] at h
      by_cases hrc : rc = 2
      · simp only [hrc, if_true, Option.some.injEq] at h
        subst h
        exact Or.inl ⟨rfl, h2⟩
      · simp only [hrc, if_false] at h
        have := ih _ _ _ _ _ r h
        rw [h2] at this
        exact this
    · simp only [evict_loop, h2, Option.some.injEq] at h
      subst h
      exact Or.inr ⟨pre, vf, post, h1, rfl, h3⟩

/-- The entry `frame_to_evict` returns is the last of the table it leaves. -/
theorem frame_to_evict_victim_last (fuel : Nat) (env : Env) (s : State) (r : Selection)
    (vf : frame) (h : frame_to_evict fuel env s = some r) (hv : r.vf_class0 = some vf) :
    r.frames.getLast? = some vf ∧ r.frames.dropLast ++ [vf] = r.frames := by
  rcases evict_loop_shape env fuel 1 0 0 s.accessed s.frames r h with
    ⟨h1, -⟩ | ⟨pre, v, post, -, h2, h3⟩
  · rw [h1] at hv; cases hv
  · rw [h2] at hv
    cases hv
    have : r.frames = (pre ++ post) ++ [vf] := by rw [h3, List.append_assoc]
    rw [this]
    simp

/-- The outer loop stops within two iterations. -/
theorem evict_loop_total (env : Env) (fuel : Nat) :
    ∀ (round_count passes k : Nat) (acc : Nat → Nat → Bool) (l : List frame),
      round_count ≤ 2 → 3 ≤ fuel + round_count →
      (evict_loop env fuel round_count passes k acc l).isSome = true := by
  induction fuel with
  | zero => intro rc p k acc l h1 h2; omega
  | succ n ih =>
    intro rc p k acc l h1 h2
    simp only [evict_loop]
    split
    · rfl
    · by_cases hrc : rc = 2
      · simp [hrc]
      · simp only [hrc, if_false]
        exact ih _ _ _ _ _ (by omega) (by omega)

/-- With a budget of two iterations `frame_to_evict` returns. -/
theorem frame_to_evict_total (fuel : Nat) (env : Env) (s : State) (hfuel : 2 ≤ fuel) :
    (frame_to_evict fuel env s).isSome = true :=
  evict_loop_total env fuel 1 0 0 s.accessed s.frames (by omega) (by omega)

/-! ## Eviction -/

theorem save_finish_frames (vf : frame) (spte : suppl_pte) (slot : Nat) (s t : State)
    (h : (save_finish vf spte slot s).final = some t) : t.frames = s.frames := by
  unfold save_finish at h
  split at h <;> simp only [Res.final, Option.some.injEq] at h <;> subst h <;> rfl

theorem save_persist_frames (env : Env) (vf : frame) (spte : suppl_pte) (s t : State)
    (h : (save_persist env vf spte s).final = some t) : t.frames = s.frames := by
  unfold save_persist at h
  split at h
  · split at h
    · simp only [Res.final, Option.some.injEq] at h
      subst h; rfl
    · have h2 := save_finish_frames _ _ _ _ _ h
      exact h2
  · exact save_finish_frames _ _ _ _ _ h

/-- The function `save_evicted_frame` does not touch the frame table. -/
theorem save_evicted_frame_frames (env : Env) (vf : frame) (s t : State)
    (h : (save_evicted_frame env vf s).final = some t) : t.frames = s.frames := by
  unfold save_evicted_frame at h
  split at h
  · exact save_persist_frames _ _ _ _ _ h
  · split at h
    · split at h
      · have h2 := save_persist_frames _ _ _ _ _ h
        exact h2
      · simp only [Res.final, Option.some.injEq] at h
        subst h; rfl
    · simp only [Res.final, Option.some.injEq] at h
      subst h; rfl

theorem save_finish_zero (vf : frame) (spte : suppl_pte) (slot : Nat) (s t : State)
    (h : save_finish vf spte slot s = Res.ret true t) :
    ∀ i, i < PGSIZE → t.mem (vf.frame + i) = 0 := by
  unfold save_finish at h
  split at h
  · cases h
  · simp only [Res.ret.injEq, true_and] at h
    subst h
    intro i hi
    simp only [store_spte, memset_zero]
    rw [if_pos]
    exact ⟨by omega, by omega⟩

theorem save_persist_zero (env : Env) (vf : frame) (spte : suppl_pte) (s t : State)
    (h : save_persist env vf spte s = Res.ret true t) :
    ∀ i, i < PGSIZE → t.mem (vf.frame + i) = 0 := by
  unfold save_persist at h
  split at h
  · split at h
    · simp at h
    · exact save_finish_zero _ _ _ _ _ h
  · exact save_finish_zero _ _ _ _ _ h

/-- A successful `save_evicted_frame` leaves the victim's frame zeroed. -/
theorem save_evicted_frame_zero (env : Env) (vf : frame) (s t : State)
    (h : save_evicted_frame env vf s = Res.ret true t) :
    ∀ i, i < PGSIZE → t.mem (vf.frame + i) = 0 := by
  unfold save_evicted_frame at h
  split at h
  · exact save_persist_zero _ _ _ _ _ h
  · split at h
    · split at h
      · exact save_persist_zero _ _ _ _ _ h
      · simp at h
    · cases h

/-- C8: for every successful `evict_frame` call, the returned address is the
physical frame of the victim that `frame_to_evict` selected, every byte of that
frame is zero, and the victim's entry (the last of the table) has the calling
thread as owner and `pte` and `upage` cleared. -/
theorem evict_frame_success (fuel : Nat) (env : Env) (s : State) (a : Nat) (t : State)
    (h : evict_frame fuel env s = Res.ret a t) :
    ∃ r vf, frame_to_evict fuel env s = some r ∧ r.vf_class0 = some vf ∧
      r.frames.getLast? = some vf ∧ a = vf.frame ∧
      (∀ i, i < PGSIZE → t.mem (a + i) = 0) ∧
      t.frames = r.frames.dropLast ++ [{ tid := env.cur, frame := a, pte := NULL, upage := NULL }] := by
  unfold evict_frame at h
  cases hsel : frame_to_evict fuel env s with
  | none => simp [hsel] at h
  | some r =>
    cases hv : r.vf_class0 with
    | none => simp [hsel, hv] at h
    | some vf =>
      simp only [hsel, hv] at h
      cases hsave : save_evicted_frame env vf (r.state s) with
      | ret b s1 =>
        cases b with
        | false => simp [hsave] at h
        | true =>
          simp only [hsave, Res.ret.injEq] at h
          obtain ⟨ha, ht⟩ := h
          have hfr : s1.frames = r.frames :=
            save_evicted_frame_frames env vf (r.state s) s1 (by rw [hsave]; rfl)
          have hz := save_evicted_frame_zero env vf (r.state s) s1 hsave
          refine ⟨r, vf, rfl, hv, (frame_to_evict_victim_last fuel env s r vf hsel hv).1, ha.symm,
            ?_, ?_⟩
          · intro i hi
            rw [← ht, ← ha]
            exact hz i hi
          · rw [← ht, ← ha, ← hfr]
      | panic msg s1 => simp [hsave] at h
      | fault s1 => simp [hsave] at h
      | timeout => simp [hsave] at h

/-- Witness of C8: eviction on the example table A, B, C with every page
accessed succeeds and hands out the frame of A. -/
theorem evict_frame_success_witness :
    ∃ t, evict_frame 2 env_quiet state_all_accessed = Res.ret 4096 t ∧
      ∃ r vf, frame_to_evict 2 env_quiet state_all_accessed = some r ∧ r.vf_class0 = some vf ∧
        r.frames.getLast? = some vf ∧ 4096 = vf.frame ∧
        (∀ i, i < PGSIZE → t.mem (4096 + i) = 0) ∧
        t.frames = r.frames.dropLast ++
          [{ tid := env_quiet.cur, frame := 4096, pte := NULL, upage := NULL }] :=
  ⟨_, rfl, evict_frame_success 2 env_quiet state_all_accessed 4096 _ rfl⟩

/-! ## Allocation -/

/-- C9 fails on the code: on the empty table, `allocate_frame (PAL_USER)` with
the allocator handing out frame 20480 and `calloc` failing in `add_frame`
returns 20480 to the caller and leaves the table empty: the frame is leased and
has no entry. -/
theorem allocate_frame_leaks_on_calloc_failure :
    (allocate_frame 2 env_calloc_fails PAL_USER state_empty).value = some 20480 ∧
    (allocate_frame 2 env_calloc_fails PAL_USER state_empty).final.map frames_of = some [] := by
  decide

/-! ## Uniqueness of physical frames -/

theorem remove_frame_list_sublist (g : Nat) (l : List frame) :
    (remove_frame_list g l).Sublist l := by
  induction l with
  | nil => exact List.Sublist.refl _
  | cons x l ih =>
    simp only [remove_frame_list]
    split
    · exact List.sublist_cons_self x l
    · exact ih.cons₂ x

theorem modify_keeps_frames (pte upage : Nat) (l : List frame) :
    ∀ i, (l.modify (fun vf => { vf with pte := pte, upage := upage }) i).map (fun vf => vf.frame) =
      l.map (fun vf => vf.frame) := by
  induction l with
  | nil => intro i; cases i <;> rfl
  | cons x l ih =>
    intro i
    cases i with
    | zero => rfl
    | succ n =>
      simp only [List.modify_succ_cons, List.map_cons, ih n]

/-- A selection permutes the table. -/
theorem frame_to_evict_perm (fuel : Nat) (env : Env) (s : State) (r : Selection)
    (h : frame_to_evict fuel env s = some r) : r.frames.Perm s.frames := by
  rcases evict_loop_shape env fuel 1 0 0 s.accessed s.frames r h with
    ⟨-, h2⟩ | ⟨pre, v, post, h1, -, h3⟩
  · rw [h2]
  · rw [h1, h3]
    refine List.Perm.append_left pre ?_
    exact (List.perm_append_comm).trans (List.Perm.refl _)

theorem save_evicted_frame_final (env : Env) (vf : frame) (s : State) :
    ∃ t, (save_evicted_frame env vf s).final = some t := by
  cases h : save_evicted_frame env vf s with
  | ret b t => exact ⟨t, rfl⟩
  | panic m t => exact ⟨t, rfl⟩
  | fault t => exact ⟨t, rfl⟩
  | timeout =>
    exfalso
    unfold save_evicted_frame save_persist save_finish at h
    simp only at h
    repeat' split at h
    all_goals cases h

/-- However `evict_frame` ends, the table holds the same physical frames. -/
theorem evict_frame_frames (fuel : Nat) (env : Env) (s t : State)
    (h : (evict_frame fuel env s).final = some t) : (frames_of t).Perm (frames_of s) := by
  unfold evict_frame at h
  cases hsel : frame_to_evict fuel env s with
  | none => simp [hsel, Res.final] at h
  | some r =>
    have hperm : (r.frames.map (fun vf => vf.frame)).Perm (frames_of s) :=
      (frame_to_evict_perm fuel env s r hsel).map _
    cases hv : r.vf_class0 with
    | none =>
      simp only [hsel, hv, Res.final, Option.some.injEq] at h
      subst h
      exact hperm
    | some vf =>
      simp only [hsel, hv] at h
      have hlast := (frame_to_evict_victim_last fuel env s r vf hsel hv).2
      cases hsave : save_evicted_frame env vf (r.state s) with
      | ret b s1 =>
        have hfr : s1.frames = r.frames :=
          save_evicted_frame_frames env vf (r.state s) s1 (by rw [hsave]; rfl)
        cases b with
        | false =>
          simp only [hsave, Res.final, Option.some.injEq] at h
          subst h
          simpa [frames_of, hfr] using hperm
        | true =>
          simp only [hsave, Res.final, Option.some.injEq] at h
          subst h
          have hmap : (s1.frames.dropLast ++
              [({ vf with tid := env.cur, pte := NULL, upage := NULL } : frame)]).map
              (fun (x : frame) => x.frame) = r.frames.map (fun (x : frame) => x.frame) := by
            conv_rhs => rw [← hlast]
            simp [hfr]
          show (List.map (fun (x : frame) => x.frame) _).Perm _
          rw [hmap]
          exact hperm
      | panic msg s1 =>
        have hfr : s1.frames = r.frames :=
          save_evicted_frame_frames env vf (r.state s) s1 (by rw [hsave]; rfl)
        simp only [hsave, Res.final, Option.some.injEq] at h
        subst h
        simpa [frames_of, hfr] using hperm
      | fault s1 =>
        have hfr : s1.frames = r.frames :=
          save_evicted_frame_frames env vf (r.state s) s1 (by rw [hsave]; rfl)
        simp only [hsave, Res.final, Option.some.injEq] at h
        subst h
        simpa [frames_of, hfr] using hperm
      | timeout => simp [hsave, Res.final] at h

/-- With a budget of two iterations `evict_frame` ends. -/
theorem evict_frame_total (fuel : Nat) (env : Env) (s : State) (hfuel : 2 ≤ fuel) :
    ∃ t, (evict_frame fuel env s).final = some t := by
  have htot := frame_to_evict_total fuel env s hfuel
  cases hsel : frame_to_evict fuel env s with
  | none => rw [hsel] at htot; cases htot
  | some r =>
    cases hv : r.vf_class0 with
    | none =>
      simp only [evict_frame, hsel, hv]
      exact ⟨_, rfl⟩
    | some vf =>
      obtain ⟨t, ht⟩ := save_evicted_frame_final env vf (r.state s)
      simp only [evict_frame, hsel, hv]
      cases hsave : save_evicted_frame env vf (r.state s) with
      | ret b s1 => cases b <;> exact ⟨_, rfl⟩
      | panic msg s1 => exact ⟨_, rfl⟩
      | fault s1 => exact ⟨_, rfl⟩
      | timeout => rw [hsave] at ht; cases ht

theorem add_frame_unique (env : Env) (f : Nat) (s : State) (hu : frames_unique s)
    (hf : f ∉ frames_of s) : frames_unique (add_frame env f s).2 := by
  unfold add_frame
  split
  · unfold frames_unique frames_of at *
    simp only [List.map_append, List.map_cons, List.map_nil]
    refine List.Nodup.append hu (List.nodup_singleton f) ?_
    intro x hx hx2
    rw [List.mem_singleton] at hx2
    exact hf (hx2 ▸ hx)
  · exact hu

theorem remove_frame_unique (g : Nat) (s : State) (hu : frames_unique s) :
    frames_unique (remove_frame g s) := by
  unfold frames_unique frames_of at *
  exact List.Nodup.sublist ((remove_frame_list_sublist g s.frames).map _) hu

theorem assign_frame_unique (env : Env) (g pte upage : Nat) (s : State) (hu : frames_unique s) :
    ∃ t, (assign_frame env g pte upage s).final = some t ∧ frames_unique t := by
  unfold assign_frame
  split
  · exact ⟨s, rfl, hu⟩
  · refine ⟨_, rfl, ?_⟩
    unfold frames_unique frames_of at *
    simp only [modify_keeps_frames]
    exact hu
  · exact ⟨s, rfl, hu⟩

theorem evict_frame_unique (fuel : Nat) (env : Env) (s : State) (hfuel : 2 ≤ fuel)
    (hu : frames_unique s) : ∃ t, (evict_frame fuel env s).final = some t ∧ frames_unique t := by
  obtain ⟨t, ht⟩ := evict_frame_total fuel env s hfuel
  exact ⟨t, ht, (evict_frame_frames fuel env s t ht).nodup_iff.mpr hu⟩

/-- C10: if no two entries of the frame table have the same physical-frame
address, and the frame handed to `add_frame` and every frame the physical
allocator returns are not in the table, then the same holds after each of
`add_frame`, `remove_frame`, `assign_frame`, `frame_to_evict`, `evict_frame`,
`allocate_frame` and `free_frame`, however the call ends. -/
theorem frames_unique_preserved (fuel : Nat) (env : Env) (s : State) (f g pte upage flags : Nat)
    (hfuel : 2 ≤ fuel) (hu : frames_unique s) (hf : f ∉ frames_of s)
    (hp : ∀ fl, env.palloc_get_page fl ≠ NULL → env.palloc_get_page fl ∉ frames_of s) :
    frames_unique (add_frame env f s).2 ∧
    frames_unique (remove_frame g s) ∧
    (∃ t, (assign_frame env g pte upage s).final = some t ∧ frames_unique t) ∧
    (∃ r, frame_to_evict fuel env s = some r ∧ frames_unique (r.state s)) ∧
    (∃ t, (evict_frame fuel env s).final = some t ∧ frames_unique t) ∧
    (∃ t, (allocate_frame fuel env flags s).final = some t ∧ frames_unique t) ∧
    frames_unique (free_frame g s) := by
  refine ⟨add_frame_unique env f s hu hf, remove_frame_unique g s hu,
    assign_frame_unique env g pte upage s hu, ?_, evict_frame_unique fuel env s hfuel hu, ?_,
    remove_frame_unique g s hu⟩
  · have htot := frame_to_evict_total fuel env s hfuel
    cases hsel : frame_to_evict fuel env s with
    | none => rw [hsel] at htot; cases htot
    | some r =>
      refine ⟨r, rfl, ?_⟩
      have hperm := (frame_to_evict_perm fuel env s r hsel).map (fun (x : frame) => x.frame)
      exact hperm.nodup_iff.mpr hu
  · have hfresh : try_palloc env flags ≠ NULL → try_palloc env flags ∉ frames_of s := by
      unfold try_palloc
      split
      · split
        · exact hp _
        · exact hp _
      · intro hne; exact absurd rfl hne
    unfold allocate_frame
    by_cases hne : try_palloc env flags = NULL
    · obtain ⟨t, ht, htu⟩ := evict_frame_unique fuel env s hfuel hu
      simp only [hne, ne_eq, not_true_eq_false, if_false]
      cases hev : evict_frame fuel env s with
      | ret a s1 =>
        rw [hev] at ht
        simp only [Res.final, Option.some.injEq] at ht
        subst ht
        by_cases ha : a = NULL
        · simp only [ha, if_true]
          exact ⟨_, rfl, htu⟩
        · simp only [ha, if_false]
          exact ⟨_, rfl, htu⟩
      | panic msg s1 =>
        rw [hev] at ht
        exact ⟨t, ht, htu⟩
      | fault s1 =>
        rw [hev] at ht
        exact ⟨t, ht, htu⟩
      | timeout => rw [hev] at ht; cases ht
    · simp only [ne_eq, hne, not_false_eq_true, if_true]
      exact ⟨_, rfl, add_frame_unique env _ s hu (hfresh hne)⟩

/-- Witness of C10 on the example table A, B, C, with the allocator handing out
the fresh frame 20480. -/
theorem frames_unique_preserved_witness :
    frames_unique (add_frame env_palloc 20480 state_all_accessed).2 ∧
    frames_unique (remove_frame 8192 state_all_accessed) ∧
    (∃ t, (assign_frame env_palloc 8192 112 3000 state_all_accessed).final = some t ∧
      frames_unique t) ∧
    (∃ r, frame_to_evict 2 env_palloc state_all_accessed = some r ∧
      frames_unique (r.state state_all_accessed)) ∧
    (∃ t, (evict_frame 2 env_palloc state_all_accessed).final = some t ∧ frames_unique t) ∧
    (∃ t, (allocate_frame 2 env_palloc PAL_USER state_all_accessed).final = some t ∧
      frames_unique t) ∧
    frames_unique (free_frame 8192 state_all_accessed) :=
  frames_unique_preserved 2 env_palloc state_all_accessed 20480 8192 112 3000 PAL_USER
    (by decide) (by decide) (by decide)
    (fun _ _ => (by decide : (20480 : Nat) ∉ frames_of state_all_accessed))

/-! ## Lookup and binding -/

/-- The first entry of a list whose frame is `f`. -/
theorem exists_first_frame (f : Nat) (l : List frame) (h : f ∈ l.map (fun vf => vf.frame)) :
    ∃ pre vf post, l = pre ++ vf :: post ∧ (∀ x ∈ pre, x.frame ≠ f) ∧ vf.frame = f := by
  obtain ⟨y, hy, hyf⟩ := List.mem_map.mp h
  obtain ⟨pre, vf, post, hl, hpre, hv⟩ :=
    exists_first_false (fun x => !decide (x.frame = f)) l ⟨y, hy, by simp [hyf]⟩
  refine ⟨pre, vf, post, hl, ?_, by simpa using hv⟩
  intro x hx
  simpa using hpre x hx

/-- The loop of `get_frame` stops at the first entry whose frame is `f`. -/
theorem get_frame_loop_found (f : Nat) (vf : frame) (post : List frame) (hv : vf.frame = f)
    (pre : List frame) :
    ∀ (i : Nat) (v0 : frame_ptr), (∀ x ∈ pre, x.frame ≠ f) →
      get_frame_loop f (pre ++ vf :: post) i v0 = frame_ptr.entry (i + pre.length) := by
  induction pre with
  | nil => intro i v0 _; simp [get_frame_loop, hv]
  | cons x pre ih =>
    intro i v0 hpre
    have hx : x.frame ≠ f := hpre x (List.mem_cons_self _ _)
    simp only [List.cons_append, get_frame_loop, hx, if_false, List.length_cons, List.append_eq]
    rw [ih (i + 1) frame_ptr.null (fun y hy => hpre y (List.mem_cons_of_mem _ hy))]
    congr 1
    omega

/-- On a non-empty list without an entry for `f` the loop of `get_frame` ends
with `vf` set to `NULL`. -/
theorem get_frame_loop_absent (f : Nat) (l : List frame) :
    ∀ (i : Nat) (v0 : frame_ptr), l ≠ [] → (∀ x ∈ l, x.frame ≠ f) →
      get_frame_loop f l i v0 = frame_ptr.null := by
  induction l with
  | nil => intro i v0 h; exact absurd rfl h
  | cons x l ih =>
    intro i v0 _ hall
    have hx : x.frame ≠ f := hall x (List.mem_cons_self _ _)
    simp only [get_frame_loop, hx, if_false]
    cases l with
    | nil => rfl
    | cons y l2 =>
      exact ih (i + 1) frame_ptr.null (by simp) (fun z hz => hall z (List.mem_cons_of_mem _ hz))

theorem modify_at_split (g : frame → frame) (vf : frame) (post : List frame) (pre : List frame) :
    (pre ++ vf :: post).modify g pre.length = pre ++ g vf :: post := by
  induction pre with
  | nil => rfl
  | cons x pre ih =>
    simp only [List.cons_append, List.length_cons, List.modify_succ_cons, ih]

/-- C11: on a table that holds an entry for frame `f`, `assign_frame (f, p, u)`
returns, and a following `get_frame (f)` returns an entry of the table whose
physical frame is `f`, whose `pte` is `p` and whose `upage` is `u`. -/
theorem assign_frame_then_get_frame (env env2 : Env) (s : State) (f p u : Nat)
    (h : f ∈ frames_of s) :
    ∃ t i vf, assign_frame env f p u s = Res.ret () t ∧
      get_frame env2 f t = frame_ptr.entry i ∧ t.frames[i]? = some vf ∧
      vf.frame = f ∧ vf.pte = p ∧ vf.upage = u := by
  obtain ⟨pre, vf, post, hl, hpre, hv⟩ := exists_first_frame f s.frames h
  have hget : get_frame env f s = frame_ptr.entry pre.length := by
    unfold get_frame
    rw [hl, get_frame_loop_found f vf post hv pre 0 _ hpre]
    simp
  refine ⟨{ s with frames := pre ++ { vf with pte := p, upage := u } :: post }, pre.length,
    { vf with pte := p, upage := u }, ?_, ?_, ?_, hv, rfl, rfl⟩
  · unfold assign_frame
    rw [hget]
    simp only [hl, modify_at_split]
  · unfold get_frame
    simp only
    rw [get_frame_loop_found f { vf with pte := p, upage := u } post hv pre 0 _ hpre]
    simp
  · show (pre ++ ({ vf with pte := p, upage := u } : frame) :: post)[pre.length]? = some _
    rw [List.getElem?_append_right (Nat.le_refl _)]
    simp

/-- Witness of C11: binding frame 8192 of the example table A, B, C. -/
theorem assign_frame_then_get_frame_witness :
    ∃ t i vf, assign_frame env_quiet 8192 112 3000 state_all_accessed = Res.ret () t ∧
      get_frame env_quiet 8192 t = frame_ptr.entry i ∧ t.frames[i]? = some vf ∧
      vf.frame = 8192 ∧ vf.pte = 112 ∧ vf.upage = 3000 :=
  assign_frame_then_get_frame env_quiet env_quiet state_all_accessed 8192 112 3000 (by decide)

/-- C12 fails on the code: on the empty table the loop of `get_frame` never
runs, so the function returns the indeterminate initial value of its local
`vf` (here not `NULL`) instead of `NULL`; `assign_frame` then writes through
that pointer. -/
theorem get_frame_empty_table_indeterminate :
    state_empty.frames = [] ∧ env_quiet.uninit_vf_null = false ∧
    get_frame env_quiet 4096 state_empty = frame_ptr.wild ∧
    (assign_frame env_quiet 4096 100 1000 state_empty).is_fault = true := by
  decide

/-! ## Unregistering and registering -/

theorem remove_frame_list_eq_eraseP (f : Nat) (l : List frame) :
    remove_frame_list f l = l.eraseP (fun vf => decide (vf.frame = f)) := by
  induction l with
  | nil => rfl
  | cons x l ih =>
    by_cases hx : x.frame = f
    · simp [remove_frame_list, hx]
    · simp [remove_frame_list, hx, ih]

theorem remove_frame_list_split (f : Nat) (vf : frame) (post : List frame) (hv : vf.frame = f)
    (pre : List frame) (hpre : ∀ x ∈ pre, x.frame ≠ f) :
    remove_frame_list f (pre ++ vf :: post) = pre ++ post := by
  induction pre with
  | nil => simp [remove_frame_list, hv]
  | cons x pre ih =>
    have hx : x.frame ≠ f := hpre x (List.mem_cons_self _ _)
    simp only [List.cons_append, remove_frame_list, hx, if_false, List.append_eq]
    rw [ih (fun y hy => hpre y (List.mem_cons_of_mem _ hy))]

theorem remove_frame_list_absent (f : Nat) (l : List frame) (h : ∀ x ∈ l, x.frame ≠ f) :
    remove_frame_list f l = l := by
  induction l with
  | nil => rfl
  | cons x l ih =>
    have hx : x.frame ≠ f := h x (List.mem_cons_self _ _)
    simp only [remove_frame_list, hx, if_false]
    rw [ih (fun y hy => h y (List.mem_cons_of_mem _ hy))]

/-- C13: `remove_frame (f)`, and with it `free_frame (f)`, leaves the table as
the old table with the first entry whose physical frame is `f` erased and the
other entries in their order; when no entry has frame `f`, in particular on the
empty table, the table is unchanged. Both are total: they return for every
table and every `f`. -/
theorem remove_frame_erases_first (f : Nat) (s : State) :
    (remove_frame f s).frames = s.frames.eraseP (fun vf => decide (vf.frame = f)) ∧
    (free_frame f s).frames = (remove_frame f s).frames ∧
    (∀ pre vf post, s.frames = pre ++ vf :: post → (∀ x ∈ pre, x.frame ≠ f) → vf.frame = f →
      (remove_frame f s).frames = pre ++ post) ∧
    (f ∉ frames_of s → (remove_frame f s).frames = s.frames ∧ (free_frame f s).frames = s.frames) ∧
    (s.frames = [] → (remove_frame f s).frames = [] ∧ (free_frame f s).frames = []) := by
  refine ⟨remove_frame_list_eq_eraseP f s.frames, rfl, ?_, ?_, ?_⟩
  · intro pre vf post hl hpre hv
    show remove_frame_list f s.frames = pre ++ post
    rw [hl]
    exact remove_frame_list_split f vf post hv pre hpre
  · intro hf
    have hall : ∀ x ∈ s.frames, x.frame ≠ f := by
      intro x hx hxf
      exact hf (List.mem_map.mpr ⟨x, hx, hxf⟩)
    have : remove_frame_list f s.frames = s.frames := remove_frame_list_absent f s.frames hall
    exact ⟨this, this⟩
  · intro he
    have : remove_frame_list f s.frames = [] := by rw [he]; rfl
    exact ⟨this, this⟩

/-- Instance of C13 on the example table A, B, C: removing frame 8192 erases B
and keeps A and C in order; removing the never-registered frame 20480 changes
nothing. -/
theorem remove_frame_erases_first_witness :
    (remove_frame 8192 state_all_accessed).frames = [frame_A, frame_C] ∧
    (free_frame 20480 state_all_accessed).frames = state_all_accessed.frames :=
  ⟨(remove_frame_erases_first 8192 state_all_accessed).2.2.1 [frame_A] frame_B [frame_C] rfl
      (by decide) rfl,
   ((remove_frame_erases_first 20480 state_all_accessed).2.2.2.1 (by decide)).2⟩

/-- C14: `add_frame (f)` returns false exactly when `calloc` of the bookkeeping
record fails, and then the state is unchanged; otherwise it returns true and
the table is the old table with one entry appended at the back, whose frame is
`f`, whose owner is the calling thread and whose `pte` and `upage` are `NULL`. -/
theorem add_frame_result (env : Env) (f : Nat) (s : State) :
    ((add_frame env f s).1 = false ↔ env.calloc_frame = false) ∧
    (env.calloc_frame = false → (add_frame env f s).2 = s) ∧
    (env.calloc_frame = true → (add_frame env f s).1 = true ∧
      (add_frame env f s).2.frames =
        s.frames ++ [{ tid := env.cur, frame := f, pte := NULL, upage := NULL }]) := by
  unfold add_frame
  cases hc : env.calloc_frame <;> simp

/-- Instance of C14: registering frame 20480 on the example table A, B, C. -/
theorem add_frame_result_witness :
    (add_frame env_quiet 20480 state_all_accessed).1 = true ∧
    (add_frame env_quiet 20480 state_all_accessed).2.frames =
      [frame_A, frame_B, frame_C, { tid := 9, frame := 20480, pte := NULL, upage := NULL }] :=
  (add_frame_result env_quiet 20480 state_all_accessed).2.2 rfl

/-! ## Allocation: the request to the physical allocator -/

theorem try_palloc_eq_request (env : Env) (flags : Nat) :
    try_palloc env flags =
      match palloc_request flags with
      | some o => env.palloc_get_page o
      | none => NULL := by
  unfold try_palloc palloc_request
  split
  · split <;> rfl
  · rfl

theorem allocate_frame_unfold (fuel : Nat) (env : Env) (flags : Nat) (s : State) :
    allocate_frame fuel env flags s =
      if try_palloc env flags ≠ NULL then
        Res.ret (try_palloc env flags) (add_frame env (try_palloc env flags) s).2
      else check_evicted (evict_frame fuel env s) := by
  unfold allocate_frame check_evicted
  simp only

/-- C15, as stated, fails for options without the user-pool flag: with
`PAL_ZERO` alone `allocate_frame` makes no request to the physical allocator,
which would have supplied frame 20480, and goes straight to eviction: it
returns the frame of A after writing page 1000 to swap. -/
theorem allocate_frame_without_user_flag_evicts :
    palloc_request PAL_ZERO = none ∧
    env_palloc.palloc_get_page PAL_ZERO = 20480 ∧
    (allocate_frame 2 env_palloc PAL_ZERO state_all_accessed).value = some 4096 ∧
    (allocate_frame 2 env_palloc PAL_ZERO state_all_accessed).final.map
      (fun t => t.swap_out_calls) = some [1000] := by
  decide

/-- C15 (amended): for every options value with the user-pool flag,
`allocate_frame` first requests a frame from the physical allocator with
`PAL_USER` and the requested zero-fill option; when the allocator supplies a
frame, that frame is returned without eviction, and eviction is
invoked when the allocator returned no frame. Without the user-pool flag no
request is made and eviction is invoked directly. -/
theorem allocate_frame_request (fuel : Nat) (env : Env) (flags : Nat) (s : State) :
    (flags &&& PAL_USER ≠ 0 →
      ∃ o, palloc_request flags = some o ∧
        o = (if flags &&& PAL_ZERO ≠ 0 then PAL_USER ||| PAL_ZERO else PAL_USER) ∧
        (env.palloc_get_page o ≠ NULL →
          allocate_frame fuel env flags s =
            Res.ret (env.palloc_get_page o) (add_frame env (env.palloc_get_page o) s).2) ∧
        (env.palloc_get_page o = NULL →
          allocate_frame fuel env flags s = check_evicted (evict_frame fuel env s))) ∧
    (flags &&& PAL_USER = 0 →
      palloc_request flags = none ∧
      allocate_frame fuel env flags s = check_evicted (evict_frame fuel env s)) := by
  constructor
  · intro hu
    have hreq : palloc_request flags =
        some (if flags &&& PAL_ZERO ≠ 0 then PAL_USER ||| PAL_ZERO else PAL_USER) := by
      unfold palloc_request
      rw [if_pos hu]
      split <;> rfl
    have htry := try_palloc_eq_request env flags
    rw [hreq] at htry
    simp only at htry
    refine ⟨_, hreq, rfl, ?_, ?_⟩
    · intro hne
      rw [allocate_frame_unfold, htry, if_pos hne]
    · intro hnull
      rw [allocate_frame_unfold, htry, if_neg (by simpa using hnull)]
  · intro hu
    have hreq : palloc_request flags = none := by
      unfold palloc_request
      rw [if_neg (by simpa using hu)]
    have htry := try_palloc_eq_request env flags
    rw [hreq] at htry
    simp only at htry
    refine ⟨hreq, ?_⟩
    rw [allocate_frame_unfold, htry]
    simp

/-- Instance of the amended C15: with `PAL_USER | PAL_ZERO` the allocator is
asked with both options and its frame 20480 is returned, in the state that
`add_frame` leaves. -/
theorem allocate_frame_request_witness :
    palloc_request (PAL_USER ||| PAL_ZERO) = some (PAL_USER ||| PAL_ZERO) ∧
    allocate_frame 2 env_palloc (PAL_USER ||| PAL_ZERO) state_all_accessed =
      Res.ret 20480 (add_frame env_palloc 20480 state_all_accessed).2 := by
  obtain ⟨o, h1, h2, h3, -⟩ :=
    (allocate_frame_request 2 env_palloc (PAL_USER ||| PAL_ZERO) state_all_accessed).1 (by decide)
  have ho : o = PAL_USER ||| PAL_ZERO := by rw [h2]; decide
  subst ho
  exact ⟨h1, h3 (by decide)⟩

/-! ## Write-back: failure of the swap write, and the entry after success -/

theorem append_singleton_ne_self {α : Type} (l : List α) (a : α) : l ≠ l ++ [a] := by
  intro h
  have := congrArg List.length h
  simp at this

theorem save_finish_calls (vf : frame) (spte : suppl_pte) (slot : Nat) (s t : State)
    (h : (save_finish vf spte slot s).final = some t) : t.swap_out_calls = s.swap_out_calls := by
  unfold save_finish at h
  split at h <;> simp only [Res.final, Option.some.injEq] at h <;> subst h <;> rfl

/-- When the swap device answers with the error value, `save_persist` either
made the swap call and returned false with nothing else changed, or made no
swap call. -/
theorem save_persist_swap_error (env : Env) (vf : frame) (spte : suppl_pte) (s t : State)
    (herr : env.swap_ret = env.SWAP_ERROR) (h : (save_persist env vf spte s).final = some t) :
    (save_persist env vf spte s = Res.ret false t ∧
      t = { s with swap_out_calls := s.swap_out_calls ++ [spte.upageaddr] }) ∨
    t.swap_out_calls = s.swap_out_calls := by
  unfold save_persist at h ⊢
  by_cases hc : (s.dirty vf.tid spte.upageaddr || !spte.is_file) = true
  · simp only [hc, if_true, herr, Res.final, Option.some.injEq] at h ⊢
    subst h
    exact Or.inl ⟨rfl, rfl⟩
  · simp only [hc] at h
    exact Or.inr (save_finish_calls _ _ _ _ _ h)

/-- C16: if `save_evicted_frame` makes the swap write and the write returns the
error value, it returns false with the frame not zeroed, the page mapping not
cleared and an existing supplemental entry untouched; `evict_frame` then
panics with the victim's entry, the last of the table, still carrying its
owner, `pte` and `upage`. -/
theorem swap_error_leaves_victim (env : Env) (herr : env.swap_ret = env.SWAP_ERROR) :
    (∀ vf s t, (save_evicted_frame env vf s).final = some t → swap_write_done s t vf.upage →
      save_evicted_frame env vf s = Res.ret false t ∧ needs_swap s vf = true ∧
      t.mem = s.mem ∧ t.mapped = s.mapped ∧ t.frames = s.frames ∧
      (∀ e, spte_of s vf = some e → t.suppl_page_table = s.suppl_page_table)) ∧
    (∀ fuel s r vf t, frame_to_evict fuel env s = some r → r.vf_class0 = some vf →
      (save_evicted_frame env vf (r.state s)).final = some t →
      swap_write_done (r.state s) t vf.upage →
      evict_frame fuel env s = Res.panic "can't save evicted frame" t ∧
      t.frames = r.frames ∧ t.frames.getLast? = some vf) := by
  have first : ∀ vf s t, (save_evicted_frame env vf s).final = some t →
      swap_write_done s t vf.upage →
      save_evicted_frame env vf s = Res.ret false t ∧ needs_swap s vf = true ∧
      t.mem = s.mem ∧ t.mapped = s.mapped ∧ t.frames = s.frames ∧
      (∀ e, spte_of s vf = some e → t.suppl_page_table = s.suppl_page_table) := by
    intro vf s t hfin hdone
    unfold swap_write_done at hdone
    have hneeds : needs_swap s vf = true := by
      cases hn : needs_swap s vf with
      | true => rfl
      | false =>
        exfalso
        cases hl : get_suppl_pte (s.suppl_page_table vf.tid) vf.upage with
        | none => simp [needs_swap, file_backed, hl] at hn
        | some spte =>
          have hup := get_suppl_pte_upageaddr _ _ _ hl
          have hcond : (s.dirty vf.tid spte.upageaddr || !spte.is_file) = false := by
            simpa [needs_swap, file_backed, hl, hup] using hn
          obtain ⟨t2, ht2, -, -, hno, -⟩ := save_persist_spec env vf spte spte s (hup ▸ hl)
          have hfin2 : (save_persist env vf spte s).final = some t := by
            simpa [save_evicted_frame, hl] using hfin
          rw [hfin2] at ht2
          cases ht2
          rw [hno hcond] at hdone
          exact append_singleton_ne_self _ _ hdone
    have main : save_evicted_frame env vf s = Res.ret false t ∧
        (t.mem = s.mem ∧ t.mapped = s.mapped ∧ t.frames = s.frames ∧
          (∀ e, spte_of s vf = some e → t.suppl_page_table = s.suppl_page_table)) := by
      unfold save_evicted_frame at hfin ⊢
      cases hl : get_suppl_pte (s.suppl_page_table vf.tid) vf.upage with
      | some spte =>
        simp only [hl] at hfin ⊢
        rcases save_persist_swap_error env vf spte s t herr hfin with ⟨h1, h2⟩ | h3
        · refine ⟨h1, ?_⟩
          subst h2
          exact ⟨rfl, rfl, rfl, fun _ _ => rfl⟩
        · rw [h3] at hdone
          exact absurd hdone (append_singleton_ne_self _ _)
      | none =>
        simp only [hl] at hfin ⊢
        cases hc : env.calloc_spte with
        | false =>
          simp only [hc, Bool.false_eq_true, if_false, Res.final, Option.some.injEq] at hfin
          subst hfin
          exact absurd hdone (append_singleton_ne_self _ _)
        | true =>
          cases hi : env.insert_ok with
          | false =>
            simp only [hc, hi, if_true, Bool.false_eq_true, if_false, Res.final,
              Option.some.injEq] at hfin
            subst hfin
            exact absurd hdone (append_singleton_ne_self _ _)
          | true =>
            simp only [hc, hi, if_true] at hfin ⊢
            rcases save_persist_swap_error env vf _ _ t herr hfin with ⟨h1, h2⟩ | h3
            · refine ⟨h1, ?_⟩
              subst h2
              refine ⟨rfl, rfl, rfl, ?_⟩
              intro e he
              simp [spte_of, hl] at he
            · have h4 : t.swap_out_calls = s.swap_out_calls := h3
              rw [h4] at hdone
              exact absurd hdone (append_singleton_ne_self _ _)
    exact ⟨main.1, hneeds, main.2⟩
  refine ⟨first, ?_⟩
  intro fuel s r vf t hsel hv hfin hdone
  obtain ⟨hret, -, -, -, hfr, -⟩ := first vf (r.state s) t hfin hdone
  refine ⟨?_, hfr, ?_⟩
  · simp only [evict_frame, hsel, hv, hret]
  · rw [hfr]
    exact (frame_to_evict_victim_last fuel env s r vf hsel hv).1

/-- Witness of C16: on the example table A, B, C with every page accessed and
the swap device full, the swap write of page 1000 fails and `evict_frame`
panics; the victim A is the last entry and still has its owner, `pte` and
`upage`. -/
theorem swap_error_leaves_victim_witness :
    ∃ t, evict_frame 2 env_swap_error state_all_accessed =
        Res.panic "can't save evicted frame" t ∧
      t.frames = [frame_B, frame_C, frame_A] ∧ t.frames.getLast? = some frame_A := by
  obtain ⟨h1, h2, h3⟩ := (swap_error_leaves_victim env_swap_error rfl).2 2 state_all_accessed
    _ frame_A _ rfl rfl rfl rfl
  exact ⟨_, h1, h2, h3⟩

theorem save_finish_success_entry (vf : frame) (spte e0 : suppl_pte) (slot : Nat) (s t : State)
    (hin : get_suppl_pte (s.suppl_page_table vf.tid) spte.upageaddr = some e0)
    (h : save_finish vf spte slot s = Res.ret true t) :
    ∃ e, get_suppl_pte (t.suppl_page_table vf.tid) spte.upageaddr = some e ∧
      e.is_loaded = false ∧ e.swap_writable = ((s.pte_word vf.pte &&& PTE_W) != 0) := by
  unfold save_finish at h
  split at h
  · cases h
  · simp only [Res.ret.injEq, true_and] at h
    subst h
    refine ⟨{ spte with swap_slot_idx := slot,
                        swap_writable := (s.pte_word vf.pte &&& PTE_W) != 0,
                        is_loaded := false }, ?_, rfl, rfl⟩
    simp only [store_spte, if_true]
    exact get_suppl_pte_put (s.suppl_page_table vf.tid) _ e0 hin

theorem save_persist_success_entry (env : Env) (vf : frame) (spte e0 : suppl_pte) (s t : State)
    (hin : get_suppl_pte (s.suppl_page_table vf.tid) spte.upageaddr = some e0)
    (h : save_persist env vf spte s = Res.ret true t) :
    ∃ e, get_suppl_pte (t.suppl_page_table vf.tid) spte.upageaddr = some e ∧
      e.is_loaded = false ∧ e.swap_writable = ((s.pte_word vf.pte &&& PTE_W) != 0) := by
  unfold save_persist at h
  split at h
  · split at h
    · simp at h
    · have h2 := save_finish_success_entry vf { spte with in_swap := spte.TRUE } e0 env.swap_ret
        { s with swap_out_calls := s.swap_out_calls ++ [spte.upageaddr] } t hin h
      exact h2
  · exact save_finish_success_entry vf spte e0 env.uninit_slot s t hin h

/-- C17: after a successful `save_evicted_frame` the supplemental entry of the
victim's page, pre-existing or created by the call, has `is_loaded` false, so
`in_swap` and `is_loaded` are not both true, and its `swap_writable` tells
whether the writable bit of the victim's page-table entry is set. -/
theorem save_evicted_frame_success_entry (env : Env) (vf : frame) (s t : State)
    (h : save_evicted_frame env vf s = Res.ret true t) :
    ∃ e, spte_of t vf = some e ∧ e.is_loaded = false ∧
      ¬ (e.in_swap = true ∧ e.is_loaded = true) ∧
      e.swap_writable = ((s.pte_word vf.pte &&& PTE_W) != 0) := by
  have key : ∃ e, spte_of t vf = some e ∧ e.is_loaded = false ∧
      e.swap_writable = ((s.pte_word vf.pte &&& PTE_W) != 0) := by
    unfold save_evicted_frame at h
    cases hl : get_suppl_pte (s.suppl_page_table vf.tid) vf.upage with
    | some spte =>
      simp only [hl] at h
      have hup := get_suppl_pte_upageaddr _ _ _ hl
      have := save_persist_success_entry env vf spte spte s t (hup ▸ hl) h
      rw [hup] at this
      exact this
    | none =>
      simp only [hl] at h
      cases hc : env.calloc_spte with
      | false => simp [hc] at h
      | true =>
        cases hi : env.insert_ok with
        | false => simp [hc, hi] at h
        | true =>
          simp only [hc, hi, if_true] at h
          have hin : get_suppl_pte
              ((insert_suppl_pte s vf.tid
                { upageaddr := vf.upage, in_swap := false, in_sawp := true, TRUE := false,
                  is_file := false, is_loaded := false, swap_slot_idx := 0,
                  swap_writable := false }).suppl_page_table vf.tid) vf.upage =
              some { upageaddr := vf.upage, in_swap := false, in_sawp := true, TRUE := false,
                     is_file := false, is_loaded := false, swap_slot_idx := 0,
                     swap_writable := false } := by
            simp only [insert_suppl_pte, if_true]
            exact get_suppl_pte_insert _ _ hl
          exact save_persist_success_entry env vf _ _ _ t hin h
  obtain ⟨e, h1, h2, h3⟩ := key
  refine ⟨e, h1, h2, ?_, h3⟩
  rintro ⟨-, hld⟩
  rw [h2] at hld
  cases hld

/-- Witness of C17: writing back the dirty page of A, whose page-table entry
is writable, leaves an entry that is not loaded and swap-writable. -/
theorem save_evicted_frame_success_entry_witness :
    ∃ t e, save_evicted_frame env_quiet frame_A state_dirty_A = Res.ret true t ∧
      spte_of t frame_A = some e ∧ e.is_loaded = false ∧
      ¬ (e.in_swap = true ∧ e.is_loaded = true) ∧
      e.swap_writable = ((state_dirty_A.pte_word frame_A.pte &&& PTE_W) != 0) := by
  obtain ⟨e, h⟩ := save_evicted_frame_success_entry env_quiet frame_A state_dirty_A _ rfl
  exact ⟨_, e, rfl, h⟩

/-! ## Rotation of the victim -/

/-- C19: whenever `frame_to_evict` returns a victim `v`, the table afterwards
is the previous table with `v` taken out of its position and appended at the
back: the other entries keep their order, and the table has the same entries
and the same length as before. -/
theorem frame_to_evict_moves_victim_back (fuel : Nat) (env : Env) (s : State) (r : Selection)
    (v : frame) (h : frame_to_evict fuel env s = some r) (hv : r.vf_class0 = some v) :
    ∃ pre post, s.frames = pre ++ v :: post ∧ r.frames = pre ++ post ++ [v] ∧
      r.frames.length = s.frames.length ∧ r.frames.Perm s.frames := by
  rcases evict_loop_shape env fuel 1 0 0 s.accessed s.frames r h with
    ⟨h1, -⟩ | ⟨pre, w, post, h1, h2, h3⟩
  · rw [h1] at hv; cases hv
  · rw [h2] at hv
    cases hv
    refine ⟨pre, post, h1, by rw [h3, List.append_assoc], ?_, frame_to_evict_perm fuel env s r h⟩
    exact (frame_to_evict_perm fuel env s r h).length_eq

/-- Witness of C19 on the table B, A, C in which only A is not accessed: A
moves from the middle to the back. -/
theorem frame_to_evict_moves_victim_back_witness :
    ∃ r, frame_to_evict 2 env_quiet state_BAC = some r ∧ r.vf_class0 = some frame_A ∧
      ∃ pre post, state_BAC.frames = pre ++ frame_A :: post ∧
        r.frames = pre ++ post ++ [frame_A] ∧
        r.frames.length = state_BAC.frames.length ∧ r.frames.Perm state_BAC.frames :=
  ⟨_, rfl, rfl, frame_to_evict_moves_victim_back 2 env_quiet state_BAC _ frame_A rfl rfl⟩

/-! ## Locking -/

theorem table_locked_accesses (l : List Event)
    (h : ∀ e ∈ l, e = Event.traverse ∨ e = Event.mutate) :
    table_locked true (l ++ [Event.release lock_id.vm_lock]) = true := by
  induction l with
  | nil => rfl
  | cons e l ih =>
    have ht := ih (fun x hx => h x (List.mem_cons_of_mem _ hx))
    rcases h e (List.mem_cons_self _ _) with rfl | rfl
    · simpa [table_locked] using ht
    · simpa [table_locked] using ht

theorem remove_frame_loop_events_accesses (f : Nat) (l : List frame) :
    ∀ e ∈ remove_frame_loop_events f l, e = Event.traverse ∨ e = Event.mutate := by
  induction l with
  | nil => intro e he; simp [remove_frame_loop_events] at he
  | cons x l ih =>
    intro e he
    simp only [remove_frame_loop_events, List.mem_cons] at he
    rcases he with rfl | he
    · exact Or.inl rfl
    · split at he
      · simp only [List.mem_singleton] at he
        exact Or.inr he
      · exact ih e he

theorem get_frame_loop_events_accesses (f : Nat) (l : List frame) :
    ∀ e ∈ get_frame_loop_events f l, e = Event.traverse ∨ e = Event.mutate := by
  induction l with
  | nil => intro e he; simp [get_frame_loop_events] at he
  | cons x l ih =>
    intro e he
    simp only [get_frame_loop_events, List.mem_cons] at he
    rcases he with rfl | he
    · exact Or.inl rfl
    · split at he
      · simp at he
      · exact ih e he

/-- The functions `remove_frame`, `get_frame` and `add_frame` work on the frame
table only while holding `vm_lock` and return with it released. -/
theorem locked_table_functions (env : Env) (f : Nat) (s : State) :
    lock_discipline (remove_frame_events f s) = true ∧
    lock_discipline (get_frame_events f s) = true ∧
    lock_discipline (add_frame_events env) = true := by
  refine ⟨?_, ?_, ?_⟩
  · have := table_locked_accesses (remove_frame_loop_events f s.frames)
      (remove_frame_loop_events_accesses f s.frames)
    simpa [lock_discipline, remove_frame_events, table_locked] using this
  · have := table_locked_accesses (get_frame_loop_events f s.frames)
      (get_frame_loop_events_accesses f s.frames)
    simpa [lock_discipline, get_frame_events, table_locked] using this
  · unfold add_frame_events
    split <;> rfl

/-- The function `frame_to_evict` reads the frame table without holding
`vm_lock`, whatever the table. -/
theorem frame_to_evict_unlocked (fuel : Nat) (env : Env) (s : State) (hfuel : 1 ≤ fuel) :
    lock_discipline (frame_to_evict_events fuel env s) = false := by
  obtain ⟨n, rfl⟩ : ∃ n, fuel = n + 1 := ⟨fuel - 1, by omega⟩
  simp [lock_discipline, frame_to_evict_events, evict_loop_events, table_locked]

/-- C20 fails on the code: on the table A, B, C `frame_to_evict` reads the
first entry and re-links it without ever acquiring `vm_lock`, and
`assign_frame` writes `pte` and `upage` of the entry for frame 8192 after
`get_frame` has released `vm_lock`; `remove_frame`, `get_frame` and `add_frame`
keep to the lock. -/
theorem frame_to_evict_and_assign_frame_unlocked :
    frame_to_evict_events 2 env_quiet state_ABC =
      [Event.traverse, Event.traverse, Event.mutate, Event.mutate] ∧
    lock_discipline (frame_to_evict_events 2 env_quiet state_ABC) = false ∧
    assign_frame_events env_quiet 8192 state_ABC =
      [Event.acquire lock_id.vm_lock, Event.traverse, Event.traverse, Event.traverse,
       Event.release lock_id.vm_lock, Event.mutate, Event.mutate] ∧
    lock_discipline (assign_frame_events env_quiet 8192 state_ABC) = false ∧
    lock_discipline (remove_frame_events 8192 state_ABC) = true ∧
    lock_discipline (get_frame_events 8192 state_ABC) = true ∧
    lock_discipline (add_frame_events env_quiet) = true := by
  decide

end VmFrame
